import Mathlib

/-!
The program brightlight: a shallow embedding of `brightlight.c`

The C program is translated function by function.  Global variables become the
fields of `State`, `exit(n)` becomes the outcome `Outcome.exit n`, every call
that touches the outside world (stderr, stdout, the control directory and its
attribute files) appends an `Event` to the trace kept in the state, and the
answers of the file system are read from an `Env`.

`unsigned int` is `Nat` reduced modulo `2^32`, `int` is `Int`; C strings are
`String`s, one `Char` standing for one byte of a NUL-free C string.
-/

namespace Brightlight

/-! ## Constants of the source -/

def BACKLIGHT_PATH : String := "/sys/class/backlight/intel_backlight"
def MAX_PATH_LEN : Nat := 200
def EXTRA_PATH_LEN : Nat := 20
def PROGRAM_NAME : String := "brightlight"
def PROGRAM_VERSION : Nat := 1

/-! ## Machine integers -/

/-- Number of values of a C `unsigned int` (32 bits). -/
def UINT_MOD : Nat := 4294967296

/-- Largest C `int`. -/
def INT_MAX : Nat := 2147483647

/-- Conversion `int -> unsigned int`: reduction modulo `2^32`. -/
def to_unsigned (i : Int) : Nat := (i % (UINT_MOD : Int)).toNat

/-- Conversion `unsigned int -> int` (also the way `%d` reads an unsigned
argument): two's complement. -/
def to_int (u : Nat) : Int :=
  if u % UINT_MOD ≤ INT_MAX then ((u % UINT_MOD : Nat) : Int)
  else ((u % UINT_MOD : Nat) : Int) - (UINT_MOD : Int)

/-! ## libc helpers -/

/-- The function `isdigit` of the C locale. -/
def isdigit (c : Char) : Bool := decide (48 ≤ c.toNat) && decide (c.toNat ≤ 57)

/-- The function `isspace` of the C locale. -/
def isspace (c : Char) : Bool :=
  decide (c.toNat = 32) || (decide (9 ≤ c.toNat) && decide (c.toNat ≤ 13))

/-- Accumulate the leading decimal digits of a character sequence. -/
def scan_digits : List Char → Nat → Nat
  | [], acc => acc
  | c :: cs, acc => if isdigit c then scan_digits cs (acc * 10 + (c.toNat - 48)) else acc

/-- Optional sign followed by digits; `none` when no digit is there. -/
def scan_signed : List Char → Option Int
  | [] => none
  | c :: cs =>
    if c = '-' then
      (match cs with
       | [] => none
       | d :: _ => if isdigit d then some (-(scan_digits cs 0 : Int)) else none)
    else if c = '+' then
      (match cs with
       | [] => none
       | d :: _ => if isdigit d then some (scan_digits cs 0 : Int) else none)
    else if isdigit c then some (scan_digits (c :: cs) 0 : Int)
    else none

/-- The integer that the conversion `%d` (and `strtol` in base 10) finds at
the start of a text: leading white space is skipped. -/
def scan_int : List Char → Option Int
  | [] => none
  | c :: cs => if isspace c then scan_int cs else scan_signed (c :: cs)

/-- The function `atoi`: 0 when no number is found.  A value outside `int` is
reduced to 32 bits. -/
def atoi (s : String) : Int := to_int (to_unsigned ((scan_int s.data).getD 0))

/-- The function `strlcpy(dst, src, size)`: `dst` receives at most `size - 1`
characters of `src`. -/
def strlcpy (src : String) (size : Nat) : String := ⟨src.data.take (size - 1)⟩

/-- The function `strlcat(dst, src, size)`: appends as much of `src` as fits in
a buffer of `size` bytes; a `dst` that already fills `size` bytes is left
as it is. -/
def strlcat (dst src : String) (size : Nat) : String :=
  if size ≤ dst.data.length then dst
  else ⟨dst.data ++ src.data.take (size - 1 - dst.data.length)⟩

/-- What `printf("%d", u)` prints for an `unsigned int` argument. -/
def format_d (u : Nat) : String := toString (to_int u)

/-! ## The outside world -/

/-- Result of `opendir`: success, or the class of `errno` the source
distinguishes. -/
inductive DirOpen where
  | ok
  | enotdir
  | eacces
  | other
  deriving DecidableEq

/-- Answers of the file system to the calls the program makes. -/
structure Env where
  /-- result of `opendir(path)` -/
  opendir : String → DirOpen
  /-- whether `access(path, F_OK) == 0` -/
  access : String → Bool
  /-- content of the file when `fopen(path, "r")` succeeds -/
  fopen_r : String → Option String
  /-- whether `fopen(path, "w")` succeeds -/
  fopen_w : String → Bool
  /-- whether `fprintf` to the file opened at `path` reports no error -/
  fprintf_ok : String → Bool

/-- Observable actions of the program, in the order they happen. -/
inductive Event where
  | stderr (text : String)
  | stdout (text : String)
  | opendir (path : String)
  /-- `closedir`; the flag tells whether the handle was a valid one -/
  | closedir (valid : Bool)
  | access (path : String)
  | fopen (path : String) (mode : String)
  | fscanf (path : String)
  | fprintf (path : String) (text : String)
  | fclose (path : String)
  deriving DecidableEq

/-- Undefined behaviour the program can run into. -/
inductive Fault where
  | div_by_zero
  | uninitialised
  deriving DecidableEq

/-- How a function ends: it returns, the process exits, or it faults. -/
inductive Outcome (α : Type) where
  | ret (a : α)
  | exit (status : Nat)
  | fault (what : Fault)
  deriving DecidableEq

/-- The global variables of the source, and the trace of events so far. -/
structure State where
  get_backlight : Nat
  set_backlight : Nat
  max_brightness : Nat
  brightness : Int
  maximum : Nat
  values_as_percentages : Nat
  argv0 : String
  backlight_path : String
  trace : List Event
  deriving DecidableEq

/-- State at process start: static storage is zero-initialised. -/
def State.init : State :=
  { get_backlight := 0, set_backlight := 0, max_brightness := 0, brightness := 0,
    maximum := 0, values_as_percentages := 0, argv0 := "", backlight_path := "",
    trace := [] }

/-- A C function: from a state to an outcome and the state it leaves. -/
def Prog (α : Type) : Type := State → Outcome α × State

def Prog.pure {α : Type} (a : α) : Prog α := fun s => (Outcome.ret a, s)

def Prog.bind {α β : Type} (m : Prog α) (f : α → Prog β) : Prog β := fun s =>
  match m s with
  | (Outcome.ret a, s1) => f a s1
  | (Outcome.exit n, s1) => (Outcome.exit n, s1)
  | (Outcome.fault w, s1) => (Outcome.fault w, s1)

instance : Monad Prog where
  pure := Prog.pure
  bind := Prog.bind

/-- The call `exit(status)`. -/
def exit {α : Type} (status : Nat) : Prog α := fun s => (Outcome.exit status, s)

/-- Undefined behaviour. -/
def fault {α : Type} (what : Fault) : Prog α := fun s => (Outcome.fault what, s)

/-- Record an event. -/
def emit (e : Event) : Prog Unit := fun s =>
  (Outcome.ret (), { s with trace := s.trace ++ [e] })

def get_state : Prog State := fun s => (Outcome.ret s, s)

def modify_state (f : State → State) : Prog Unit := fun s => (Outcome.ret (), f s)

/-! ## The functions of `brightlight.c` -/

/-- The function `from_percentage`, the global `maximum` passed explicitly. -/
def from_percentage (maximum val_to_convert : Nat) : Nat :=
  ((val_to_convert * maximum) % UINT_MOD) / 100

/-- The function `to_percentage`, the global `maximum` passed explicitly;
`none` is the division by zero. -/
def to_percentage (maximum val_to_convert : Nat) : Option Nat :=
  if maximum = 0 then none
  else some (((val_to_convert * 100) % UINT_MOD) / maximum)

/-- The call `from_percentage(val)` in the program. -/
def from_percentage_call (val_to_convert : Nat) : Prog Nat := do
  let s ← get_state
  pure (from_percentage s.maximum val_to_convert)

/-- The call `to_percentage(val)` in the program. -/
def to_percentage_call (val_to_convert : Nat) : Prog Nat := do
  let s ← get_state
  match to_percentage s.maximum val_to_convert with
  | some r => pure r
  | none => fault Fault.div_by_zero

def MSG_INVALID : String := "Invalid argument. Pass the -h flag for help.\n"
def MSG_NO_OPTIONS : String := "No options specified. Pass the -h flag for help.\n"
def MSG_CONFLICT : String := "Conflicting options given! Pass the -h flag for help.\n"
def MSG_PARSE : String := "Error parsing options. Pass the -h flag for help.\n"

/-- The loop of `parse_cmdline_int` over the characters from index
`character` on. -/
def parse_cmdline_int_loop : List Char → Nat → Prog Unit
  | [], _ => pure ()
  | c :: cs, character =>
    if 5 ≤ character ∨ isdigit c = false then do
      emit (Event.stderr MSG_INVALID)
      exit 1
    else parse_cmdline_int_loop cs (character + 1)

/-- The function `parse_cmdline_int`. -/
def parse_cmdline_int (arg_to_parse : String) : Prog Nat := do
  parse_cmdline_int_loop arg_to_parse.data 0
  pure (to_unsigned (atoi arg_to_parse))

def VERSION_TEXT : String :=
  "This is free software under the terms of the GNU General Public License, \nversion 2 or later. You are free to use, modify and redistribute it, however \nthere is NO WARRANTY; please see <https://gnu.org/licenses/gpl.html> for \nfurther information.\n"

def USAGE_OPTIONS : String :=
  "Options:\n\n      -v         Print program version and exit.\n      -h         Show this help message.\n      -p         Read or write the brightness level as a percentage (0 to 100)\n                 instead of the internal scale the kernel uses (such as e.g. 0\n                 to 7812).\n      -r         Read the backlight brightness level.\n      -w <val>   Set the backlight brightness level to <val>, where <val> is a\n                 a positive integer.\n      -f <path>  Specify alternative path to backlight control directory, such\n                 as \"/sys/class/backlight/intel_backlight/\"\n      -m         Show maximum brightness level of the screen backlight on the \n                 kernel's scale. The compile-time default control directory is\n                 used if -f is not specified. The -p flag is ignored when this\n                 option is specified.\n\n"

def USAGE_TAIL : String :=
  "The flags -r, -w and -m are mutually exclusive, however one of the three is \nrequired.\n"

/-- The function `version`. -/
def version : Prog Unit := do
  emit (Event.stdout (PROGRAM_NAME ++ " v" ++ format_d PROGRAM_VERSION ++ "\n"))
  emit (Event.stdout "Copyright (C) 2016 David Miller <multiplexd@gmx.com\n")
  emit (Event.stdout VERSION_TEXT)

/-- The function `usage`. -/
def usage : Prog Unit := do
  let s ← get_state
  emit (Event.stdout ("Usage: " ++ s.argv0 ++ " [OPTIONS]\n"))
  emit (Event.stdout USAGE_OPTIONS)
  emit (Event.stdout USAGE_TAIL)

/-- The local variables of `parse_args` that live across loop iterations
(`argn` is the position in the token list).  `cmdline_brightness` is `none`
while the pointer is uninitialised. -/
structure ParseLocals where
  conflicting_args : Nat
  cmdline_brightness : Option String
  deriving DecidableEq

/-- The locals before the loop: `conflicting_args = 0` and the pointer not yet
assigned. -/
def ParseLocals.init : ParseLocals := { conflicting_args := 0, cmdline_brightness := none }

/-- The body of the `while` loop of `parse_args` for the option
`tok = argv[argn]`; `next` is `argv[argn + 1]` when `argn + 1 < argc`.  The
result holds the locals and whether the branch did its own `argn++` to step
over the option's argument. -/
def parse_option (tok : String) (next : Option String) (l : ParseLocals) :
    Prog (ParseLocals × Bool) :=
  if tok = "-v" then do
    version
    exit 0
  else if tok = "-h" then do
    usage
    exit 0
  else if tok = "-r" then do
    if l.conflicting_args ≠ 0 then do
      emit (Event.stderr MSG_CONFLICT)
      exit 1
    modify_state (fun s => { s with get_backlight := 1 })
    pure ({ l with conflicting_args := 1 }, false)
  else
    match decide (tok = "-w"), next with
    | true, some arg => do
      if l.conflicting_args ≠ 0 then do
        emit (Event.stderr MSG_CONFLICT)
        exit 1
      modify_state (fun s => { s with set_backlight := 1 })
      pure ({ cmdline_brightness := some arg, conflicting_args := 1 }, true)
    | _, _ =>
      match decide (tok = "-f"), next with
      | true, some arg => do
        modify_state (fun s => { s with backlight_path := strlcpy arg MAX_PATH_LEN })
        pure (l, true)
      | _, _ =>
        if tok = "-p" then do
          modify_state (fun s => { s with values_as_percentages := 1 })
          pure (l, false)
        else if tok = "-m" then do
          if l.conflicting_args ≠ 0 then do
            emit (Event.stderr MSG_CONFLICT)
            exit 1
          modify_state (fun s => { s with max_brightness := 1 })
          pure ({ l with conflicting_args := 1 }, false)
        else do
          emit (Event.stderr MSG_PARSE)
          exit 1

/-- The `while` loop of `parse_args`.  The list holds `argv[argn], ...,
argv[argc - 1]`; the loop stops at the end of the list (`argn == argc`) or at
a token that does not start with `-`, and the result holds the locals and the
tokens left.  After the body the final `argn++` moves on by one token, or by
two when the branch stepped over an option argument; with no token left the
loop test `argn < argc` fails. -/
def parse_loop : List String → ParseLocals → Prog (ParseLocals × List String)
  | [], l => pure (l, [])
  | tok :: rest, l =>
    if tok.data.head? ≠ some '-' then pure (l, tok :: rest)
    else do
      let (l1, stepped) ← parse_option tok rest.head? l
      match rest with
      | [] => pure (l1, [])
      | arg :: rest1 => if stepped then parse_loop rest1 l1 else parse_loop (arg :: rest1) l1

/-- The assignments at the start of `parse_args`. -/
def parse_args_init (s : State) : State :=
  { s with set_backlight := 0, get_backlight := 0, max_brightness := 0,
           values_as_percentages := 0, brightness := 0,
           backlight_path := strlcpy BACKLIGHT_PATH MAX_PATH_LEN }

/-- The function `parse_args`; `args` is `argv[1], ..., argv[argc - 1]`
(`argv[0]` is the program name, so `argc == 1` exactly when `args` is empty). -/
def parse_args (args : List String) : Prog Unit := do
  modify_state parse_args_init
  if args.length + 1 = 1 then do
    emit (Event.stderr MSG_NO_OPTIONS)
    exit 1
  let (l, left) ← parse_loop args ParseLocals.init
  if left ≠ [] then do
    emit (Event.stderr MSG_PARSE)
    exit 1
  let s ← get_state
  if s.set_backlight ≠ 0 then
    match l.cmdline_brightness with
    | some arg => do
      let v ← parse_cmdline_int arg
      modify_state (fun s => { s with brightness := to_int v })
    | none => fault Fault.uninitialised

/-- Path of an attribute file as `get_current_brightness`, `get_max_brightness`
and `set_current_brightness` build it. -/
def attribute_path (backlight_path name : String) : String :=
  strlcat (strlcpy backlight_path MAX_PATH_LEN) name (MAX_PATH_LEN + EXTRA_PATH_LEN)

/-- Largest C `long` (64 bits). -/
def LONG_MAX : Int := 9223372036854775807

/-- Smallest C `long` (64 bits). -/
def LONG_MIN : Int := -9223372036854775808

/-- Saturation of a scanned number to the range of `long`, as `strtol` does. -/
def clamp_long (v : Int) : Int :=
  if v < LONG_MIN then LONG_MIN else if LONG_MAX < v then LONG_MAX else v

/-- The statement pair `int v = -1; fscanf(file, "%d", &v)`: the variable keeps
`-1` when nothing is converted.  The conversion `%d` of glibc reads the number
as a `long`, saturating at `LONG_MIN` and `LONG_MAX`, and stores its low 32
bits in the `int`. -/
def fscanf_d (content : String) : Int :=
  match scan_int content.data with
  | some v => to_int (to_unsigned (clamp_long v))
  | none => -1

/-- The function `get_current_brightness`. -/
def get_current_brightness (env : Env) : Prog Nat := do
  let s ← get_state
  let path := attribute_path s.backlight_path "/brightness"
  emit (Event.fopen path "r")
  match env.fopen_r path with
  | none => do
    emit (Event.stderr "Error occured while trying to open brightness file.\n")
    exit 1
  | some content => do
    emit (Event.fscanf path)
    let bright := fscanf_d content
    if bright < 0 then do
      emit (Event.stderr "Could not read brightness from brightness file.\n")
      exit 1
    emit (Event.fclose path)
    pure (to_unsigned bright)

/-- The function `get_max_brightness`. -/
def get_max_brightness (env : Env) : Prog Nat := do
  let s ← get_state
  let path := attribute_path s.backlight_path "/max_brightness"
  emit (Event.fopen path "r")
  match env.fopen_r path with
  | none => do
    emit (Event.stderr "Error occured while trying to open max_brightness file.\n")
    exit 1
  | some content => do
    emit (Event.fscanf path)
    let max := fscanf_d content
    if max < 0 then do
      emit (Event.stderr "Could not read maximum brightness from max_brightness file.\n")
      exit 1
    emit (Event.fclose path)
    pure (to_unsigned max)

/-- The function `read_backlight_brightness`. -/
def read_backlight_brightness (env : Env) : Prog Unit := do
  let cur ← get_current_brightness env
  modify_state (fun s => { s with brightness := to_int cur })
  let s ← get_state
  if s.values_as_percentages ≠ 0 then do
    let outval ← to_percentage_call (to_unsigned s.brightness)
    emit (Event.stdout ("Current backlight brightness is: " ++ format_d outval ++ "%." ++ "\n"))
  else do
    let outval := to_unsigned s.brightness
    emit (Event.stdout ("Current backlight brightness is: " ++ format_d outval ++ "." ++ "\n"))

/-- The function `read_maximum_brightness`. -/
def read_maximum_brightness : Prog Unit := do
  let s ← get_state
  if s.values_as_percentages ≠ 0 then do
    let outval ← to_percentage_call s.maximum
    emit (Event.stdout ("Maximum backlight brightness is: " ++ format_d outval ++ "%." ++ "\n"))
  else do
    let outval := s.maximum
    emit (Event.stdout ("Maximum backlight brightness is: " ++ format_d outval ++ "." ++ "\n"))

/-- The function `set_current_brightness`. -/
def set_current_brightness (env : Env) (bright : Nat) : Prog Unit := do
  let s ← get_state
  let path := attribute_path s.backlight_path "/brightness"
  emit (Event.fopen path "w")
  if env.fopen_w path = false then do
    emit (Event.stderr "Error occured while trying to open brightness file.\n")
    exit 1
  emit (Event.fprintf path (format_d bright))
  if env.fprintf_ok path = false then do
    emit (Event.stderr "Could not write brightness to brightness file.\n")
    exit 1
  emit (Event.fclose path)

/-- The function `validate_args`.  In `brightness > maximum` the `int` is
converted to `unsigned int`. -/
def validate_args : Prog Unit := do
  let s ← get_state
  if s.values_as_percentages ≠ 0 then
    if s.brightness < 0 ∨ s.brightness > 100 then do
      emit (Event.stderr MSG_INVALID)
      exit 1
  else
    if s.brightness < 0 ∨ to_unsigned s.brightness > s.maximum then do
      emit (Event.stderr MSG_INVALID)
      exit 1

/-- The function `validate_control_directory`.  After a failed `opendir` the
source calls `closedir(NULL)`, which glibc answers with an error return; the
call is recorded and execution goes on. -/
def validate_control_directory (env : Env) : Prog Unit := do
  let s ← get_state
  emit (Event.opendir s.backlight_path)
  let control_dir := env.opendir s.backlight_path
  if control_dir ≠ DirOpen.ok then
    if control_dir = DirOpen.enotdir then
      emit (Event.stderr (s.backlight_path ++ " is not a directory.\n"))
    else if control_dir = DirOpen.eacces then
      emit (Event.stderr ("Could not access " ++ s.backlight_path ++ ": Permission denied.\n"))
    else do
      emit (Event.stderr "Could not access control directory.\n")
      exit 1
  emit (Event.closedir (decide (control_dir = DirOpen.ok)))
  let path := strlcat (strlcpy s.backlight_path MAX_PATH_LEN) "/brightness" EXTRA_PATH_LEN
  emit (Event.access path)
  if env.access path = false then do
    emit (Event.stderr "Control directory exists but could not find brightness control file.\n")
    exit 1
  let path := strlcat (strlcpy s.backlight_path MAX_PATH_LEN) "/max_brightness" EXTRA_PATH_LEN
  emit (Event.access path)
  if env.access path = false then do
    emit (Event.stderr "Control directory exists but could not find max_brightness file.\n")
    exit 1

/-- The function `write_backlight_brightness`. -/
def write_backlight_brightness (env : Env) : Prog Unit := do
  let current ← get_current_brightness env
  let s ← get_state
  if s.values_as_percentages ≠ 0 then do
    let val_to_write ← from_percentage_call (to_unsigned s.brightness)
    let oldval ← to_percentage_call current
    set_current_brightness env val_to_write
    emit (Event.stdout ("Changed backlight brightness: " ++ format_d oldval ++ "% " ++ "=> "
      ++ toString s.brightness ++ "%." ++ "\n"))
  else do
    let val_to_write := to_unsigned s.brightness
    let oldval := current
    set_current_brightness env val_to_write
    emit (Event.stdout ("Changed backlight brightness: " ++ format_d oldval ++ " " ++ "=> "
      ++ toString s.brightness ++ "." ++ "\n"))

/-- The function `main`; `argv0 :: args` is `argv`. -/
def main (env : Env) (argv0 : String) (args : List String) : Prog Unit := do
  modify_state (fun s => { s with argv0 := argv0 })
  parse_args args
  validate_control_directory env
  let m ← get_max_brightness env
  modify_state (fun s => { s with maximum := m })
  let s ← get_state
  if s.set_backlight ≠ 0 then
    validate_args
  if s.get_backlight ≠ 0 then
    read_backlight_brightness env
  else if s.set_backlight ≠ 0 then
    write_backlight_brightness env
  else if s.max_brightness ≠ 0 then
    read_maximum_brightness
  else
    emit (Event.stderr MSG_PARSE)
  exit 0

/-- Run the program from process start. -/
def run (env : Env) (argv0 : String) (args : List String) : Outcome Unit × State :=
  main env argv0 args State.init

/-! ## Definitions used to state the properties -/

/-- Reading of the claim: the number a string of decimal digits denotes, most
significant digit first. -/
def decimal_value (s : String) : Nat :=
  Nat.ofDigits 10 ((s.data.reverse).map (fun c => c.toNat - 48))

/-- State after a message went to stderr. -/
def State.with_stderr (s : State) (msg : String) : State :=
  { s with trace := s.trace ++ [Event.stderr msg] }

/-- Number of action flags (`get_backlight`, `set_backlight`, `max_brightness`)
that are set. -/
def actions_selected (s : State) : Nat :=
  (if s.get_backlight ≠ 0 then 1 else 0) + (if s.set_backlight ≠ 0 then 1 else 0) +
  (if s.max_brightness ≠ 0 then 1 else 0)

/-- An action option as it stands in the argument list: `-r`, `-m`, or `-w`
with its value. -/
def is_action_option (act : List String) : Prop :=
  act = ["-r"] ∨ act = ["-m"] ∨ ∃ v, act = ["-w", v]

/-- Loop invariant of `parse_args`: `conflicting_args` is set exactly when one
action flag is. -/
def parse_inv (l : ParseLocals) (s : State) : Prop :=
  (l.conflicting_args = 0 ∧ actions_selected s = 0) ∨
  (l.conflicting_args ≠ 0 ∧ actions_selected s = 1)

/-- State after the events `es` happened. -/
def State.log (s : State) (es : List Event) : State :=
  { s with trace := s.trace ++ es }

/-- Path of the `brightness` file that the accessors open. -/
def State.brightness_file (s : State) : String :=
  attribute_path s.backlight_path "/brightness"

/-- Path of the `max_brightness` file that `get_max_brightness` opens. -/
def State.max_brightness_file (s : State) : String :=
  attribute_path s.backlight_path "/max_brightness"

/-- Whether an event opens, reads, writes or closes the file at `path`. -/
def touches_file (path : String) : Event → Bool
  | Event.fopen p _ => decide (p = path)
  | Event.fscanf p => decide (p = path)
  | Event.fprintf p _ => decide (p = path)
  | Event.fclose p => decide (p = path)
  | _ => false

/-- The `exit(0)` that ends `main`, after an action that ended as `r`. -/
def then_exit0 (r : Outcome Unit × State) : Outcome Unit × State :=
  match r with
  | (Outcome.ret _, s) => (Outcome.exit 0, s)
  | (Outcome.exit n, s) => (Outcome.exit n, s)
  | (Outcome.fault w, s) => (Outcome.fault w, s)

/-- Reading of the claim: the value given to `-w` is within bounds, `[0, 100]`
in percentage mode and `[0, maximum]` otherwise. -/
def write_value_in_range (s : State) : Prop :=
  if s.values_as_percentages ≠ 0 then 0 ≤ s.brightness ∧ s.brightness ≤ 100
  else 0 ≤ s.brightness ∧ s.brightness ≤ (s.maximum : Int)

/-- A healthy control directory at `dir`: it opens, holds both attribute files
with the given contents, and `brightness` is writable. -/
def env_dir (dir max_content cur_content : String) : Env where
  opendir := fun p => if p = dir then DirOpen.ok else DirOpen.other
  access := fun p =>
    decide (p = dir) || decide (p = dir ++ "/brightness") || decide (p = dir ++ "/max_brightness")
  fopen_r := fun p =>
    if p = dir ++ "/max_brightness" then some max_content
    else if p = dir ++ "/brightness" then some cur_content
    else none
  fopen_w := fun p => decide (p = dir ++ "/brightness")
  fprintf_ok := fun _ => true

/-- The compiled-in control directory with maximum 255 and brightness 128. -/
def env_example : Env := env_dir BACKLIGHT_PATH "255\n" "128\n"

/-- The directory of `env_example` without read permission: `opendir` fails
with `EACCES`, the files inside stay reachable. -/
def env_no_read_permission : Env :=
  { env_example with opendir := fun _ => DirOpen.eacces }

/-- A regular file in place of the compiled-in control directory: `opendir`
fails with `ENOTDIR`, the path itself exists, nothing exists below it. -/
def env_regular_file : Env where
  opendir := fun _ => DirOpen.enotdir
  access := fun p => decide (p = BACKLIGHT_PATH)
  fopen_r := fun _ => none
  fopen_w := fun _ => false
  fprintf_ok := fun _ => true

/-- Path that `validate_control_directory` hands to `access` for the attribute
file `name`. -/
def State.checked_path (s : State) (name : String) : String :=
  strlcat (strlcpy s.backlight_path MAX_PATH_LEN) name EXTRA_PATH_LEN

/-- Events of `validate_control_directory` up to and including `closedir`,
when it gets that far. -/
def opendir_events (path : String) : DirOpen → List Event
  | DirOpen.ok => [Event.opendir path, Event.closedir true]
  | DirOpen.enotdir =>
    [Event.opendir path, Event.stderr (path ++ " is not a directory.\n"), Event.closedir false]
  | DirOpen.eacces =>
    [Event.opendir path, Event.stderr ("Could not access " ++ path ++ ": Permission denied.\n"),
      Event.closedir false]
  | DirOpen.other =>
    [Event.opendir path, Event.stderr "Could not access control directory.\n"]

/-- State after the assignment `maximum = get_max_brightness()` in `main`. -/
def State.with_maximum (s : State) (m : Nat) : State :=
  { s with maximum := m }

/-- The compiled-in control directory with maximum 100 and brightness 50. -/
def env_max100 : Env := env_dir BACKLIGHT_PATH "100\n" "50\n"

instance (s : State) : Decidable (write_value_in_range s) :=
  inferInstanceAs (Decidable (if s.values_as_percentages ≠ 0
    then 0 ≤ s.brightness ∧ s.brightness ≤ 100
    else 0 ≤ s.brightness ∧ s.brightness ≤ (s.maximum : Int)))

/-- State in which `main` calls `parse_args`. -/
def State.start (argv0 : String) : State :=
  { State.init with argv0 := argv0 }

/-- State after `parse_args` for the arguments `-w 150`. -/
def state_w150_parsed : State :=
  (parse_args ["-w", "150"] (State.start "brightlight")).2

/-- State after `validate_control_directory` for `-w 150`, maximum 100. -/
def state_w150_validated : State :=
  (validate_control_directory env_max100 state_w150_parsed).2

/-- State after `get_max_brightness` for `-w 150`, maximum 100. -/
def state_w150_max_read : State :=
  (get_max_brightness env_max100 state_w150_validated).2

/-- The compiled-in control directory with maximum 42949673. -/
def env_huge : Env := env_dir BACKLIGHT_PATH "42949673\n" "0\n"

/-- The compiled-in control directory whose `max_brightness` file holds 0. -/
def env_zero : Env := env_dir BACKLIGHT_PATH "0\n" "0\n"

/-- A state ready for the write action: `-w 64`, maximum 255, default
directory. -/
def state_w64 : State :=
  { State.init with set_backlight := 1, brightness := 64, maximum := 255,
                    backlight_path := BACKLIGHT_PATH }

/-- A state with maximum 0 in percentage mode, default directory. -/
def state_zero_pct : State :=
  { State.init with values_as_percentages := 1, maximum := 0,
                    backlight_path := BACKLIGHT_PATH }

/-- State after `parse_args` for the argument `-p` alone. -/
def state_p_parsed : State :=
  (parse_args ["-p"] (State.start "brightlight")).2

/-- State after `validate_control_directory` for `-p` alone in `env_example`. -/
def state_p_validated : State :=
  (validate_control_directory env_example state_p_parsed).2

/-- State after `get_max_brightness` for `-p` alone in `env_example`. -/
def state_p_max_read : State :=
  (get_max_brightness env_example state_p_validated).2

/-- A state with the compiled-in control directory, as `parse_args` leaves it
for `-r`. -/
def state_r_parsed : State :=
  (parse_args ["-r"] (State.start "brightlight")).2

/-- Whether an event is a call into the file system. -/
def is_file_operation : Event → Bool
  | Event.stderr _ => false
  | Event.stdout _ => false
  | _ => true

/-- A control directory that opens but holds neither attribute file. -/
def env_empty_dir : Env where
  opendir := fun p => if p = BACKLIGHT_PATH then DirOpen.ok else DirOpen.other
  access := fun p => decide (p = BACKLIGHT_PATH)
  fopen_r := fun _ => none
  fopen_w := fun _ => false
  fprintf_ok := fun _ => true

/-- Argument lists made only of recognized options with their arguments:
`-r`, `-p`, `-m`, and `-w` or `-f` followed by one more token. -/
inductive OptionsWellFormed : List String → Prop where
  | nil : OptionsWellFormed []
  | flag (tok : String) (rest : List String) (h : tok = "-r" ∨ tok = "-p" ∨ tok = "-m")
      (hrest : OptionsWellFormed rest) : OptionsWellFormed (tok :: rest)
  | arg (tok v : String) (rest : List String) (h : tok = "-w" ∨ tok = "-f")
      (hrest : OptionsWellFormed rest) : OptionsWellFormed (tok :: v :: rest)

/-- A token `tok` in option position, followed by `post`, that `parse_args`
answers with "Error parsing options": it does not start with `-`, or it is no
recognized option, or it is `-w` or `-f` at the end of the list. -/
def is_parse_error (tok : String) (post : List String) : Prop :=
  tok.data.head? ≠ some '-' ∨
  (tok ≠ "-v" ∧ tok ≠ "-h" ∧ tok ≠ "-r" ∧ tok ≠ "-w" ∧ tok ≠ "-f" ∧ tok ≠ "-p" ∧ tok ≠ "-m") ∨
  ((tok = "-w" ∨ tok = "-f") ∧ post = [])

/-- A `-w` value that `parse_cmdline_int` rejects. -/
def malformed_value (v : String) : Prop :=
  (∃ c ∈ v.data, isdigit c = false) ∨ 5 < v.data.length

/-- The compiled-in control directory with maximum and brightness 42949673. -/
def env_huge_both : Env := env_dir BACKLIGHT_PATH "42949673\n" "42949673\n"

/-- The compiled-in control directory with maximum 1 and a `brightness` file
that holds 30000000. -/
def env_overbright : Env := env_dir BACKLIGHT_PATH "1\n" "30000000\n"

/-- A state ready for the read-current action in percentage mode: maximum 255,
default directory. -/
def state_r_pct : State :=
  { State.init with get_backlight := 1, values_as_percentages := 1, maximum := 255,
                    backlight_path := BACKLIGHT_PATH }

/-- A state ready for the write action in percentage mode: `-p -w 25`, maximum
255, default directory. -/
def state_w25_pct : State :=
  { State.init with set_backlight := 1, values_as_percentages := 1, brightness := 25,
                    maximum := 255, backlight_path := BACKLIGHT_PATH }

/-! ## The monad of program functions -/

@[simp] theorem prog_pure {α : Type} (a : α) (s : State) :
    (pure a : Prog α) s = (Outcome.ret a, s) := rfl

theorem prog_bind {α β : Type} (m : Prog α) (f : α → Prog β) (s : State) :
    (m >>= f) s = Prog.bind m f s := rfl

theorem prog_bind_ret {α β : Type} (m : Prog α) (f : α → Prog β) (s s1 : State) (a : α)
    (h : m s = (Outcome.ret a, s1)) : (m >>= f) s = f a s1 := by
  simp only [prog_bind, Prog.bind, h]

theorem prog_bind_exit {α β : Type} (m : Prog α) (f : α → Prog β) (s s1 : State) (n : Nat)
    (h : m s = (Outcome.exit n, s1)) : (m >>= f) s = (Outcome.exit n, s1) := by
  simp only [prog_bind, Prog.bind, h]

theorem prog_bind_fault {α β : Type} (m : Prog α) (f : α → Prog β) (s s1 : State) (w : Fault)
    (h : m s = (Outcome.fault w, s1)) : (m >>= f) s = (Outcome.fault w, s1) := by
  simp only [prog_bind, Prog.bind, h]

theorem emit_apply (e : Event) (s : State) :
    emit e s = (Outcome.ret (), { s with trace := s.trace ++ [e] }) := rfl

theorem exit_apply {α : Type} (n : Nat) (s : State) :
    (exit n : Prog α) s = (Outcome.exit n, s) := rfl

theorem modify_state_apply (f : State → State) (s : State) :
    modify_state f s = (Outcome.ret (), f s) := rfl

theorem get_state_apply (s : State) : get_state s = (Outcome.ret s, s) := rfl

/-! ## Arithmetic of the scale converter -/

theorem to_percentage_no_wrap (m v : Nat) (hm : 0 < m) (hv : v * 100 < UINT_MOD) :
    to_percentage m v = some (v * 100 / m) := by
  unfold to_percentage
  rw [if_neg (by omega), Nat.mod_eq_of_lt hv]

theorem from_percentage_no_wrap (m v : Nat) (hv : v * m < UINT_MOD) :
    from_percentage m v = v * m / 100 := by
  unfold from_percentage
  rw [Nat.mod_eq_of_lt hv]

theorem wrapped_lt (x : Nat) (h : UINT_MOD ≤ x) : x % UINT_MOD < x := by
  have h3 : x % UINT_MOD + UINT_MOD * (x / UINT_MOD) = x := Nat.mod_add_div _ _
  have h4 : 1 ≤ x / UINT_MOD := (Nat.one_le_div_iff (by decide)).2 h
  have h5 : UINT_MOD * 1 ≤ UINT_MOD * (x / UINT_MOD) := Nat.mul_le_mul_left _ h4
  have h6 : 0 < UINT_MOD := by decide
  omega

/-- C6 (counterexample): with maximum 42949673, a value an `int` holds, the
product `maximum * 100` wraps around and `to_percentage(maximum)` is 0, not
100. -/
theorem C6_counterexample :
    42949673 ≤ INT_MAX ∧ to_percentage 42949673 42949673 = some 0 := by
  decide

/-- C6 (amended): for every `maximum > 0`, `to_percentage(maximum)` is 100
exactly when `maximum * 100` does not wrap (`maximum * 100 < 2^32`, that is
`maximum <= 42949672`); for such a maximum the read-maximum action in
percentage mode prints 100. -/
theorem C6_to_percentage_maximum (maximum : Nat) (hpos : 0 < maximum) :
    (to_percentage maximum maximum = some 100 ↔ maximum * 100 < UINT_MOD) ∧
    (maximum * 100 < UINT_MOD →
      ∀ s : State, s.maximum = maximum → s.values_as_percentages ≠ 0 →
        read_maximum_brightness s =
          (Outcome.ret (), { s with trace := s.trace ++
            [Event.stdout "Maximum backlight brightness is: 100%.\n"] })) := by
  have key : maximum * 100 < UINT_MOD → to_percentage maximum maximum = some 100 := by
    intro h
    rw [to_percentage_no_wrap maximum maximum hpos h, Nat.mul_div_cancel_left 100 hpos]
  refine ⟨⟨?_, key⟩, ?_⟩
  · intro h
    by_contra hw
    unfold to_percentage at h
    rw [if_neg (by omega)] at h
    have h1 : maximum * 100 % UINT_MOD / maximum = 100 := Option.some.inj h
    have h2 : maximum * 100 % UINT_MOD < maximum * 100 := wrapped_lt _ (by omega)
    have h6 : maximum * 100 % UINT_MOD / maximum < 100 := by
      apply (Nat.div_lt_iff_lt_mul hpos).2
      omega
    omega
  · intro h s hs hp
    have hk := key h
    simp only [read_maximum_brightness, to_percentage_call, bind, Prog.bind, get_state, hs, hk,
      pure, Prog.pure, emit, if_pos hp]
    rfl

/-- C6 (witness): maximum 255. -/
theorem C6_to_percentage_maximum_witness :
    0 < 255 ∧ (to_percentage 255 255 = some 100 ↔ 255 * 100 < UINT_MOD) :=
  ⟨by decide, (C6_to_percentage_maximum 255 (by decide)).1⟩

/-- C7 (counterexample): with maximum 42949673 the product `100 * maximum`
wraps around and `from_percentage(100)` is 0, not the maximum. -/
theorem C7_counterexample :
    42949673 ≤ INT_MAX ∧ from_percentage 42949673 100 = 0 := by
  decide

/-- C7 (amended): for every maximum, `from_percentage(0)` is 0, and
`from_percentage(100)` is the maximum exactly when `100 * maximum` does not
wrap (`100 * maximum < 2^32`). -/
theorem C7_from_percentage_ends (maximum : Nat) :
    from_percentage maximum 0 = 0 ∧
    (from_percentage maximum 100 = maximum ↔ 100 * maximum < UINT_MOD) := by
  refine ⟨by simp [from_percentage], ?_, ?_⟩
  · intro h
    by_contra hw
    unfold from_percentage at h
    have h2 : 100 * maximum % UINT_MOD < 100 * maximum := wrapped_lt _ (by omega)
    have h6 : 100 * maximum % UINT_MOD / 100 < maximum := by
      apply (Nat.div_lt_iff_lt_mul (by decide)).2
      omega
    omega
  · intro h
    rw [from_percentage_no_wrap maximum 100 h, Nat.mul_div_cancel_left maximum (by decide)]

/-- C8 (counterexample): with maximum 255 the raw value 5 comes back as 2, a
loss of 3 where `maximum / 100` is 2; and with maximum 42949673, where the
products wrap around, the raw value 42949673 comes back as 0. -/
theorem C8_counterexample :
    (to_percentage 255 5 = some 1 ∧ from_percentage 255 1 = 2 ∧ ¬ (5 - 2 ≤ 255 / 100)) ∧
    (to_percentage 42949673 42949673 = some 0 ∧ from_percentage 42949673 0 = 0 ∧
      ¬ (42949673 - 0 ≤ 42949673 / 100)) := by
  decide

/-- C8 (amended): for every `maximum > 0` with `100 * maximum < 2^32` and every
raw value `raw <= maximum`, the round trip raw -> `to_percentage` ->
`from_percentage` never gains and loses at most `maximum / 100 + 1`. -/
theorem C8_round_trip_bound (maximum raw : Nat) (hpos : 0 < maximum)
    (hmax : 100 * maximum < UINT_MOD) (hraw : raw ≤ maximum) :
    ∃ pct, to_percentage maximum raw = some pct ∧
      from_percentage maximum pct ≤ raw ∧
      raw - from_percentage maximum pct ≤ maximum / 100 + 1 := by
  have hv : raw * 100 < UINT_MOD := by
    have : raw * 100 ≤ maximum * 100 := Nat.mul_le_mul_right _ hraw
    omega
  refine ⟨raw * 100 / maximum, to_percentage_no_wrap maximum raw hpos hv, ?_⟩
  have h1 : maximum * (raw * 100 / maximum) + raw * 100 % maximum = raw * 100 :=
    Nat.div_add_mod _ _
  have h2 : raw * 100 % maximum < maximum := Nat.mod_lt _ hpos
  have h3 : raw * 100 / maximum * maximum = maximum * (raw * 100 / maximum) := Nat.mul_comm _ _
  have h4 : raw * 100 / maximum * maximum < UINT_MOD := by omega
  rw [from_percentage_no_wrap maximum _ h4, h3]
  generalize maximum * (raw * 100 / maximum) = prod at h1 h3 h4 ⊢
  omega

/-- C8 (witness): maximum 255, raw value 5. -/
theorem C8_round_trip_bound_witness :
    0 < 255 ∧ 100 * 255 < UINT_MOD ∧ 5 ≤ 255 ∧
    ∃ pct, to_percentage 255 5 = some pct ∧
      from_percentage 255 pct ≤ 5 ∧
      5 - from_percentage 255 pct ≤ 255 / 100 + 1 :=
  ⟨by decide, by decide, by decide, C8_round_trip_bound 255 5 (by decide) (by decide) (by decide)⟩

/-! ## `parse_cmdline_int` -/

theorem parse_cmdline_int_loop_eq (cs : List Char) :
    ∀ (k : Nat) (st : State), k ≤ 5 → parse_cmdline_int_loop cs k st =
      if (∃ c ∈ cs, isdigit c = false) ∨ 5 < k + cs.length
      then (Outcome.exit 1, st.with_stderr MSG_INVALID) else (Outcome.ret (), st) := by
  induction cs with
  | nil =>
    intro k st hk
    have : ¬ 5 < k := by omega
    simp [parse_cmdline_int_loop, this, pure, Prog.pure]
  | cons c cs ih =>
    intro k st hk
    unfold parse_cmdline_int_loop
    by_cases h5 : 5 ≤ k
    · have : 5 < k + (c :: cs).length := by simp; omega
      rw [if_pos (Or.inl h5), if_pos (Or.inr this)]
      rfl
    · by_cases hd : isdigit c = false
      · rw [if_pos (Or.inr hd), if_pos (Or.inl ⟨c, by simp, hd⟩)]
        rfl
      · have hd1 : isdigit c = true := by simpa using hd
        rw [if_neg (by simp [h5, hd1]), ih (k + 1) st (by omega)]
        have e1 : k + 1 + cs.length = k + (c :: cs).length := by simp; omega
        have e2 : (∃ x ∈ c :: cs, isdigit x = false) ↔ (∃ x ∈ cs, isdigit x = false) := by
          simp [hd1]
        rw [e1]
        simp only [e2]

theorem scan_digits_eq (cs : List Char) :
    ∀ acc : Nat, (∀ c ∈ cs, isdigit c = true) →
      scan_digits cs acc =
        acc * 10 ^ cs.length + Nat.ofDigits 10 ((cs.reverse).map (fun c => c.toNat - 48)) := by
  induction cs with
  | nil => intro acc _; simp [scan_digits]
  | cons c cs ih =>
    intro acc h
    have hc : isdigit c = true := h c (by simp)
    have hcs : ∀ x ∈ cs, isdigit x = true := fun x hx => h x (by simp [hx])
    unfold scan_digits
    rw [if_pos hc, ih _ hcs]
    simp only [List.reverse_cons, List.map_append, List.map_cons, List.map_nil,
      Nat.ofDigits_append, List.length_map, List.length_reverse, Nat.ofDigits_singleton,
      List.length_cons]
    ring

theorem isdigit_range (c : Char) (h : isdigit c = true) : 48 ≤ c.toNat ∧ c.toNat ≤ 57 := by
  simpa [isdigit] using h

theorem scan_int_digits (c : Char) (cs : List Char) (h : ∀ x ∈ c :: cs, isdigit x = true) :
    scan_int (c :: cs) = some ((scan_digits (c :: cs) 0 : Nat) : Int) := by
  have hc := isdigit_range c (h c (by simp))
  have hsp : isspace c = false := by
    simp [isspace]; omega
  have hminus : c ≠ '-' := by
    intro e; rw [e] at hc; revert hc; decide
  have hplus : c ≠ '+' := by
    intro e; rw [e] at hc; revert hc; decide
  simp [scan_int, hsp, scan_signed, hminus, hplus, h c (by simp)]

theorem decimal_value_lt (s : String) (hd : ∀ c ∈ s.data, isdigit c = true)
    (hl : s.data.length ≤ 5) : decimal_value s ≤ 99999 := by
  have h1 : decimal_value s < 10 ^ ((s.data.reverse).map (fun c => c.toNat - 48)).length := by
    apply Nat.ofDigits_lt_base_pow_length (by decide)
    intro x hx
    simp only [List.mem_map, List.mem_reverse] at hx
    obtain ⟨c, hc, rfl⟩ := hx
    have := isdigit_range c (hd c hc)
    omega
  simp only [List.length_map, List.length_reverse] at h1
  have h2 : 10 ^ s.data.length ≤ 10 ^ 5 := Nat.pow_le_pow_right (by decide) hl
  omega

theorem atoi_digits (s : String) (hd : ∀ c ∈ s.data, isdigit c = true)
    (hl : s.data.length ≤ 5) : to_unsigned (atoi s) = decimal_value s := by
  have hb := decimal_value_lt s hd hl
  have hv : (scan_int s.data).getD 0 = ((decimal_value s : Nat) : Int) := by
    cases hs : s.data with
    | nil => simp [scan_int, decimal_value, hs]
    | cons c cs =>
      rw [hs] at hd
      rw [scan_int_digits c cs hd, scan_digits_eq (c :: cs) 0 hd]
      simp [decimal_value, hs]
  unfold atoi
  rw [hv]
  have h1 : ((decimal_value s : Nat) : Int) % ((UINT_MOD : Nat) : Int) =
      ((decimal_value s : Nat) : Int) := by
    apply Int.emod_eq_of_lt (by omega)
    unfold UINT_MOD; omega
  unfold to_unsigned
  have h2 : to_int (decimal_value s) = ((decimal_value s : Nat) : Int) := by
    unfold to_int
    have : decimal_value s % UINT_MOD = decimal_value s :=
      Nat.mod_eq_of_lt (by unfold UINT_MOD; omega)
    rw [this, if_pos (by unfold INT_MAX; omega)]
  rw [h1, Int.toNat_ofNat, h2, h1, Int.toNat_ofNat]

/-- The function `parse_cmdline_int` as a case table. -/
theorem parse_cmdline_int_eq (s : String) (st : State) :
    parse_cmdline_int s st =
      if (∃ c ∈ s.data, isdigit c = false) ∨ 5 < s.data.length
      then (Outcome.exit 1, st.with_stderr MSG_INVALID)
      else (Outcome.ret (decimal_value s), st) := by
  have hloop := parse_cmdline_int_loop_eq s.data 0 st (by decide)
  rw [Nat.zero_add] at hloop
  by_cases hb : (∃ c ∈ s.data, isdigit c = false) ∨ 5 < s.data.length
  · rw [if_pos hb] at hloop ⊢
    simp only [parse_cmdline_int, prog_bind, Prog.bind, hloop]
  · rw [if_neg hb] at hloop ⊢
    have hd : ∀ c ∈ s.data, isdigit c = true := by
      intro c hc
      by_contra hn
      exact hb (Or.inl ⟨c, hc, by simpa using hn⟩)
    have hl : s.data.length ≤ 5 := by
      by_contra hn
      exact hb (Or.inr (by omega))
    simp only [parse_cmdline_int, prog_bind, Prog.bind, hloop, prog_pure, atoi_digits s hd hl]

theorem decimal_value_le_of_ok (s : String)
    (hb : ¬ ((∃ c ∈ s.data, isdigit c = false) ∨ 5 < s.data.length)) :
    decimal_value s ≤ 99999 := by
  apply decimal_value_lt
  · intro c hc
    by_contra hn
    exact hb (Or.inl ⟨c, hc, by simpa using hn⟩)
  · by_contra hn
    exact hb (Or.inr (by omega))

/-- C3: for every string, `parse_cmdline_int` exits with status 1 after the
"Invalid argument" message exactly when the string has a character that is
not a decimal digit or is longer than 5 characters; otherwise it returns the
decimal value of the string, which is at most 99999. -/
theorem C3_parse_cmdline_int (s : String) (st : State) :
    (parse_cmdline_int s st = (Outcome.exit 1, st.with_stderr MSG_INVALID) ↔
      ((∃ c ∈ s.data, isdigit c = false) ∨ 5 < s.data.length)) ∧
    (¬ ((∃ c ∈ s.data, isdigit c = false) ∨ 5 < s.data.length) →
      parse_cmdline_int s st = (Outcome.ret (decimal_value s), st) ∧
      decimal_value s ≤ 99999) := by
  rw [parse_cmdline_int_eq]
  refine ⟨⟨?_, ?_⟩, ?_⟩
  · intro h
    by_contra hb
    rw [if_neg hb] at h
    exact absurd (congrArg Prod.fst h) (by simp)
  · intro hb
    rw [if_pos hb]
  · intro hb
    rw [if_neg hb]
    exact ⟨rfl, decimal_value_le_of_ok s hb⟩

/-- C3 (witness): the string "00042" is accepted with value 42. -/
theorem C3_parse_cmdline_int_witness :
    ¬ ((∃ c ∈ "00042".data, isdigit c = false) ∨ 5 < "00042".data.length) ∧
    parse_cmdline_int "00042" State.init = (Outcome.ret (decimal_value "00042"), State.init) ∧
    decimal_value "00042" ≤ 99999 :=
  ⟨by decide, (C3_parse_cmdline_int "00042" State.init).2 (by decide)⟩

/-! ## `parse_args` -/

theorem parse_loop_nil (l : ParseLocals) (s : State) :
    parse_loop [] l s = (Outcome.ret (l, []), s) := rfl

theorem parse_loop_nodash (tok : String) (rest : List String) (l : ParseLocals) (s : State)
    (h : tok.data.head? ≠ some '-') :
    parse_loop (tok :: rest) l s = (Outcome.ret (l, tok :: rest), s) := by
  unfold parse_loop
  rw [if_pos h]
  rfl

theorem version_apply (s : State) : ∃ s1, version s = (Outcome.ret (), s1) :=
  ⟨_, rfl⟩

theorem usage_apply (s : State) : ∃ s1, usage s = (Outcome.ret (), s1) :=
  ⟨_, rfl⟩

/-- The loop body as a case table. -/
theorem parse_option_eq (tok : String) (next : Option String) (l : ParseLocals) (s : State) :
    parse_option tok next l s =
      if tok = "-v" then (Outcome.exit 0, (version s).2)
      else if tok = "-h" then (Outcome.exit 0, (usage s).2)
      else if tok = "-r" then
        if l.conflicting_args ≠ 0 then (Outcome.exit 1, s.with_stderr MSG_CONFLICT)
        else (Outcome.ret ({ l with conflicting_args := 1 }, false), { s with get_backlight := 1 })
      else if tok = "-w" ∧ next ≠ none then
        if l.conflicting_args ≠ 0 then (Outcome.exit 1, s.with_stderr MSG_CONFLICT)
        else (Outcome.ret ({ cmdline_brightness := next, conflicting_args := 1 }, true),
              { s with set_backlight := 1 })
      else if tok = "-f" ∧ next ≠ none then
        (Outcome.ret (l, true), { s with backlight_path := strlcpy (next.getD "") MAX_PATH_LEN })
      else if tok = "-p" then
        (Outcome.ret (l, false), { s with values_as_percentages := 1 })
      else if tok = "-m" then
        if l.conflicting_args ≠ 0 then (Outcome.exit 1, s.with_stderr MSG_CONFLICT)
        else (Outcome.ret ({ l with conflicting_args := 1 }, false), { s with max_brightness := 1 })
      else (Outcome.exit 1, s.with_stderr MSG_PARSE) := by
  unfold parse_option
  by_cases hv : tok = "-v"
  · rw [if_pos hv, if_pos hv]; rfl
  rw [if_neg hv, if_neg hv]
  by_cases hh : tok = "-h"
  · rw [if_pos hh, if_pos hh]; rfl
  rw [if_neg hh, if_neg hh]
  by_cases hr : tok = "-r"
  · rw [if_pos hr, if_pos hr]
    by_cases hc : l.conflicting_args ≠ 0
    · simp only [prog_bind, Prog.bind, if_pos hc]; rfl
    · simp only [prog_bind, Prog.bind, if_neg hc]; rfl
  rw [if_neg hr, if_neg hr]
  by_cases hw : tok = "-w"
  · subst hw
    cases next with
    | none => simp [prog_bind, Prog.bind, emit_apply, exit_apply, State.with_stderr]
    | some arg =>
      by_cases hc : l.conflicting_args ≠ 0
      · simp [prog_bind, Prog.bind, emit_apply, exit_apply, State.with_stderr, hc]
      · simp [prog_bind, Prog.bind, emit_apply, exit_apply, modify_state_apply, hc]
  by_cases hf : tok = "-f"
  · subst hf
    cases next with
    | none => simp [prog_bind, Prog.bind, emit_apply, exit_apply, State.with_stderr]
    | some arg => simp [prog_bind, Prog.bind, emit_apply, exit_apply, modify_state_apply]
  by_cases hp : tok = "-p"
  · subst hp
    simp [prog_bind, Prog.bind, emit_apply, exit_apply, modify_state_apply]
  by_cases hm : tok = "-m"
  · subst hm
    by_cases hc : l.conflicting_args ≠ 0
    · simp [prog_bind, Prog.bind, emit_apply, exit_apply, State.with_stderr, hc]
    · simp [prog_bind, Prog.bind, emit_apply, exit_apply, modify_state_apply, hc]
  simp [hw, hf, hp, hm, prog_bind, Prog.bind, emit_apply, exit_apply, State.with_stderr]

theorem parse_loop_cons (tok : String) (rest : List String) (l : ParseLocals) (s : State)
    (hdash : tok.data.head? = some '-') :
    parse_loop (tok :: rest) l s =
      match parse_option tok rest.head? l s with
      | (Outcome.ret (l1, stepped), s1) =>
        if stepped then parse_loop rest.tail l1 s1 else parse_loop rest l1 s1
      | (Outcome.exit n, s1) => (Outcome.exit n, s1)
      | (Outcome.fault w, s1) => (Outcome.fault w, s1) := by
  rw [parse_loop, if_neg (by simp [hdash])]
  simp only [prog_bind, Prog.bind]
  cases rest with
  | nil =>
    rcases hpo : parse_option tok ([] : List String).head? l s with ⟨o, s1⟩
    cases o with
    | ret a =>
      obtain ⟨l1, stepped⟩ := a
      cases stepped <;> simp [parse_loop_nil]
    | exit n => simp
    | fault w => simp
  | cons arg rest1 =>
    rcases hpo : parse_option tok (arg :: rest1).head? l s with ⟨o, s1⟩
    cases o with
    | ret a =>
      obtain ⟨l1, stepped⟩ := a
      cases stepped <;> simp
    | exit n => simp
    | fault w => simp

theorem parse_option_inv (tok : String) (next : Option String) (l l1 : ParseLocals)
    (s s1 : State) (b : Bool) (hinv : parse_inv l s)
    (h : parse_option tok next l s = (Outcome.ret (l1, b), s1)) :
    parse_inv l1 s1 ∧ s1.trace = s.trace := by
  rw [parse_option_eq] at h
  unfold parse_inv actions_selected at hinv ⊢
  split_ifs at h <;>
    simp only [Prod.mk.injEq, Outcome.ret.injEq, reduceCtorEq, false_and, and_false] at h
  all_goals obtain ⟨⟨rfl, rfl⟩, rfl⟩ := h
  all_goals simp_all

theorem parse_option_none (tok : String) (l l1 : ParseLocals) (s s1 : State) (b : Bool)
    (h : parse_option tok none l s = (Outcome.ret (l1, b), s1)) :
    b = false ∧ ∀ next, parse_option tok next l s = (Outcome.ret (l1, b), s1) := by
  rw [parse_option_eq] at h
  have hnn : ¬ ((none : Option String) ≠ none) := fun h => h rfl
  simp only [hnn, and_false, if_false] at h
  split_ifs at h <;>
    simp only [Prod.mk.injEq, Outcome.ret.injEq, reduceCtorEq, false_and, and_false] at h
  all_goals obtain ⟨⟨rfl, rfl⟩, rfl⟩ := h
  all_goals refine ⟨rfl, fun next => ?_⟩
  all_goals rw [parse_option_eq]
  all_goals simp_all

theorem parse_loop_inv : ∀ (n : Nat) (toks : List String), toks.length ≤ n →
    ∀ (l : ParseLocals) (s : State) (l1 : ParseLocals) (left : List String) (s1 : State),
      parse_inv l s → parse_loop toks l s = (Outcome.ret (l1, left), s1) →
      parse_inv l1 s1 ∧ s1.trace = s.trace := by
  intro n
  induction n with
  | zero =>
    intro toks hlen l s l1 left s1 hinv h
    have : toks = [] := List.length_eq_zero.1 (by omega)
    subst this
    rw [parse_loop_nil] at h
    simp only [Prod.mk.injEq, Outcome.ret.injEq] at h
    obtain ⟨⟨rfl, _⟩, rfl⟩ := h
    exact ⟨hinv, rfl⟩
  | succ n ih =>
    intro toks hlen l s l1 left s1 hinv h
    cases toks with
    | nil =>
      rw [parse_loop_nil] at h
      simp only [Prod.mk.injEq, Outcome.ret.injEq] at h
      obtain ⟨⟨rfl, _⟩, rfl⟩ := h
      exact ⟨hinv, rfl⟩
    | cons tok rest =>
      have hrest : rest.length ≤ n := by simp at hlen; omega
      by_cases hdash : tok.data.head? = some '-'
      · rw [parse_loop_cons tok rest l s hdash] at h
        rcases hpo : parse_option tok rest.head? l s with ⟨o, s2⟩
        rw [hpo] at h
        cases o with
        | ret a =>
          obtain ⟨l2, stepped⟩ := a
          obtain ⟨hinv2, htr2⟩ := parse_option_inv tok _ l l2 s s2 stepped hinv hpo
          cases stepped with
          | true =>
            simp only [if_true] at h
            have hlen2 : rest.tail.length ≤ n := by simp; omega
            obtain ⟨h3, h4⟩ := ih rest.tail hlen2 l2 s2 l1 left s1 hinv2 h
            exact ⟨h3, h4.trans htr2⟩
          | false =>
            simp only [Bool.false_eq_true, if_false] at h
            obtain ⟨h3, h4⟩ := ih rest hrest l2 s2 l1 left s1 hinv2 h
            exact ⟨h3, h4.trans htr2⟩
        | exit k => simp at h
        | fault w => simp at h
      · rw [parse_loop_nodash tok rest l s hdash] at h
        simp only [Prod.mk.injEq, Outcome.ret.injEq] at h
        obtain ⟨⟨rfl, _⟩, rfl⟩ := h
        exact ⟨hinv, rfl⟩

theorem parse_loop_append : ∀ (n : Nat) (pre : List String), pre.length ≤ n →
    ∀ (rest : List String) (l : ParseLocals) (s : State) (l1 : ParseLocals) (s1 : State),
      parse_loop pre l s = (Outcome.ret (l1, []), s1) →
      parse_loop (pre ++ rest) l s = parse_loop rest l1 s1 := by
  intro n
  induction n with
  | zero =>
    intro pre hlen rest l s l1 s1 h
    have : pre = [] := List.length_eq_zero.1 (by omega)
    subst this
    rw [parse_loop_nil] at h
    simp only [Prod.mk.injEq, Outcome.ret.injEq, and_true] at h
    obtain ⟨rfl, rfl⟩ := h
    rfl
  | succ n ih =>
    intro pre hlen rest l s l1 s1 h
    cases pre with
    | nil =>
      rw [parse_loop_nil] at h
      simp only [Prod.mk.injEq, Outcome.ret.injEq, and_true] at h
      obtain ⟨rfl, rfl⟩ := h
      rfl
    | cons tok rest0 =>
      have hrest : rest0.length ≤ n := by simp at hlen; omega
      by_cases hdash : tok.data.head? = some '-'
      · rw [parse_loop_cons tok rest0 l s hdash] at h
        rw [List.cons_append, parse_loop_cons tok (rest0 ++ rest) l s hdash]
        cases rest0 with
        | nil =>
          rcases hpo : parse_option tok ([] : List String).head? l s with ⟨o, s2⟩
          rw [hpo] at h
          cases o with
          | ret a =>
            obtain ⟨l2, stepped⟩ := a
            obtain ⟨hb, hnext⟩ := parse_option_none tok l l2 s s2 stepped hpo
            subst hb
            simp only [Bool.false_eq_true, if_false, parse_loop_nil, Prod.mk.injEq,
              Outcome.ret.injEq, and_true] at h
            obtain ⟨rfl, rfl⟩ := h
            rw [hnext]
            simp
          | exit k => simp at h
          | fault w => simp at h
        | cons arg rest1 =>
          rcases hpo : parse_option tok (arg :: rest1).head? l s with ⟨o, s2⟩
          rw [hpo] at h
          have hpo2 : parse_option tok (arg :: rest1 ++ rest).head? l s = (o, s2) := hpo
          rw [hpo2]
          cases o with
          | ret a =>
            obtain ⟨l2, stepped⟩ := a
            cases stepped with
            | true =>
              simp only [if_true, List.tail_cons] at h
              simp only [if_true, List.cons_append, List.tail_cons]
              exact ih rest1 (by simp at hrest; omega) rest l2 s2 l1 s1 h
            | false =>
              simp only [Bool.false_eq_true, if_false] at h
              simp only [Bool.false_eq_true, if_false]
              exact ih (arg :: rest1) hrest rest l2 s2 l1 s1 h
          | exit k => simp at h
          | fault w => simp at h
      · rw [parse_loop_nodash tok rest0 l s hdash] at h
        simp at h

theorem parse_cmdline_int_state (arg : String) (s s1 : State) (v : Nat)
    (h : parse_cmdline_int arg s = (Outcome.ret v, s1)) : s1 = s := by
  have hloop := parse_cmdline_int_loop_eq arg.data 0 s (by decide)
  simp only [parse_cmdline_int, prog_bind, Prog.bind, hloop] at h
  split_ifs at h
  · simp at h
  · simp only [prog_pure, Prod.mk.injEq, Outcome.ret.injEq] at h
    exact h.2.symm

/-- The function `parse_args` as a case table over the result of its loop. -/
theorem parse_args_eq (args : List String) (st : State) :
    parse_args args st =
      if args = [] then (Outcome.exit 1, (parse_args_init st).with_stderr MSG_NO_OPTIONS)
      else
        match parse_loop args ParseLocals.init (parse_args_init st) with
        | (Outcome.ret (l, left), s1) =>
          if left ≠ [] then (Outcome.exit 1, s1.with_stderr MSG_PARSE)
          else if s1.set_backlight ≠ 0 then
            match l.cmdline_brightness with
            | some arg =>
              (match parse_cmdline_int arg s1 with
               | (Outcome.ret v, s2) => (Outcome.ret (), { s2 with brightness := to_int v })
               | (Outcome.exit n, s2) => (Outcome.exit n, s2)
               | (Outcome.fault w, s2) => (Outcome.fault w, s2))
            | none => (Outcome.fault Fault.uninitialised, s1)
          else (Outcome.ret (), s1)
        | (Outcome.exit n, s1) => (Outcome.exit n, s1)
        | (Outcome.fault w, s1) => (Outcome.fault w, s1) := by
  unfold parse_args
  by_cases hargs : args = []
  · subst hargs
    simp [prog_bind, Prog.bind, modify_state_apply, emit_apply, exit_apply, State.with_stderr]
  · have hlen : ¬ (args.length + 1 = 1) := by
      intro h
      exact hargs (List.length_eq_zero.1 (by omega))
    rw [if_neg hargs]
    rcases hloop : parse_loop args ParseLocals.init (parse_args_init st) with ⟨o, s1⟩
    cases o with
    | ret a =>
      obtain ⟨l, left⟩ := a
      by_cases hleft : left ≠ []
      · simp [prog_bind, Prog.bind, modify_state_apply, emit_apply, exit_apply,
          State.with_stderr, hlen, hloop, hleft]
      · have hleft2 : left = [] := by simpa using hleft
        by_cases hset : s1.set_backlight ≠ 0
        · cases hcb : l.cmdline_brightness with
          | none =>
            simp [prog_bind, Prog.bind, modify_state_apply, emit_apply, exit_apply,
              get_state_apply, hlen, hloop, hleft2, hset, hcb, fault]
          | some arg =>
            rcases hp : parse_cmdline_int arg s1 with ⟨o2, s2⟩
            cases o2 with
            | ret v =>
              simp [prog_bind, Prog.bind, modify_state_apply, emit_apply, exit_apply,
                get_state_apply, hlen, hloop, hleft2, hset, hcb, hp]
            | exit k =>
              simp [prog_bind, Prog.bind, modify_state_apply, emit_apply, exit_apply,
                get_state_apply, hlen, hloop, hleft2, hset, hcb, hp]
            | fault w =>
              simp [prog_bind, Prog.bind, modify_state_apply, emit_apply, exit_apply,
                get_state_apply, hlen, hloop, hleft2, hset, hcb, hp]
        · have hset0 : s1.set_backlight = 0 := by simpa using hset
          simp [prog_bind, Prog.bind, modify_state_apply, emit_apply, exit_apply,
            get_state_apply, hlen, hloop, hleft2, hset0]
    | exit k =>
      simp [prog_bind, Prog.bind, modify_state_apply, emit_apply, exit_apply, hlen, hloop]
    | fault w =>
      simp [prog_bind, Prog.bind, modify_state_apply, emit_apply, exit_apply, hlen, hloop]

theorem parse_inv_init (st : State) : parse_inv ParseLocals.init (parse_args_init st) :=
  Or.inl ⟨rfl, rfl⟩

theorem to_int_small (u : Nat) (h : u ≤ INT_MAX) : to_int u = (u : Int) := by
  have h1 : u % UINT_MOD = u := Nat.mod_eq_of_lt (by unfold INT_MAX at h; unfold UINT_MOD; omega)
  unfold to_int
  rw [h1, if_pos h]

theorem to_unsigned_nonneg (i : Int) (h0 : 0 ≤ i) (h1 : i ≤ (INT_MAX : Int)) :
    ((to_unsigned i : Nat) : Int) = i := by
  unfold to_unsigned
  have : i % ((UINT_MOD : Nat) : Int) = i := by
    apply Int.emod_eq_of_lt h0
    unfold INT_MAX at h1; unfold UINT_MOD; omega
  rw [this, Int.toNat_of_nonneg h0]

theorem to_int_le (u : Nat) : to_int u ≤ (INT_MAX : Int) := by
  unfold to_int
  have h : u % UINT_MOD < UINT_MOD := Nat.mod_lt _ (by decide)
  split_ifs with hle
  · exact_mod_cast hle
  · unfold UINT_MOD at h ⊢; unfold INT_MAX; omega

/-- What a normal return of `parse_args` leaves behind. -/
theorem parse_args_ret (args : List String) (st s1 : State)
    (h : parse_args args st = (Outcome.ret (), s1)) :
    s1.trace = st.trace ∧ actions_selected s1 ≤ 1 ∧
    (s1.set_backlight ≠ 0 → 0 ≤ s1.brightness ∧ s1.brightness ≤ 99999) := by
  rw [parse_args_eq] at h
  split_ifs at h with hargs
  · simp at h
  · rcases hloop : parse_loop args ParseLocals.init (parse_args_init st) with ⟨o, s0⟩
    rw [hloop] at h
    cases o with
    | ret a =>
      obtain ⟨l, left⟩ := a
      obtain ⟨hinv, htr⟩ := parse_loop_inv args.length args (le_refl _) _ _ l left s0
        (parse_inv_init st) hloop
      have hle : actions_selected s0 ≤ 1 := by
        rcases hinv with ⟨_, h0⟩ | ⟨_, h1⟩ <;> omega
      have htr0 : s0.trace = st.trace := htr
      simp only at h
      split_ifs at h with hleft hset
      · simp at h
      · cases hcb : l.cmdline_brightness with
        | none => rw [hcb] at h; simp at h
        | some arg =>
          rw [hcb] at h
          simp only at h
          rw [parse_cmdline_int_eq] at h
          split_ifs at h with hbad
          · simp at h
          · simp only [Prod.mk.injEq, true_and] at h
            subst h
            have hv := decimal_value_le_of_ok arg hbad
            refine ⟨htr0, hle, fun _ => ?_⟩
            show 0 ≤ to_int (decimal_value arg) ∧ to_int (decimal_value arg) ≤ 99999
            rw [to_int_small _ (by unfold INT_MAX; omega)]
            omega
      · simp only [Prod.mk.injEq, true_and] at h
        subst h
        exact ⟨htr0, hle, fun hs => absurd hs hset⟩
    | exit k => simp at h
    | fault w => simp at h

/-- C2: `parse_args` never returns normally with more than one action flag set,
and an action option (`-r`, `-m`, or `-w` with its value) that is reached after
an action was already selected ends the process with status 1 and the
conflicting-options message. -/
theorem C2_parse_args_exclusive (args : List String) (st : State) :
    (∀ st1, parse_args args st = (Outcome.ret (), st1) → actions_selected st1 ≤ 1) ∧
    (∀ (pre act post : List String) (l1 : ParseLocals) (st1 : State),
      args = pre ++ act ++ post → is_action_option act →
      parse_loop pre ParseLocals.init (parse_args_init st) = (Outcome.ret (l1, []), st1) →
      0 < actions_selected st1 →
      parse_args args st = (Outcome.exit 1, st1.with_stderr MSG_CONFLICT)) := by
  constructor
  · intro st1 h
    exact (parse_args_ret args st st1 h).2.1
  · intro pre act post l1 st1 hargs hact hpre hsel
    obtain ⟨hinv, _⟩ := parse_loop_inv pre.length pre (le_refl _) _ _ l1 [] st1
      (parse_inv_init st) hpre
    have hc : l1.conflicting_args ≠ 0 := by
      rcases hinv with ⟨_, h0⟩ | ⟨h1, _⟩
      · omega
      · exact h1
    have hne : args ≠ [] := by
      rcases hact with rfl | rfl | ⟨v, rfl⟩ <;> simp [hargs]
    have hloop : parse_loop args ParseLocals.init (parse_args_init st) =
        (Outcome.exit 1, st1.with_stderr MSG_CONFLICT) := by
      rw [hargs, List.append_assoc, parse_loop_append pre.length pre (le_refl _) _ _ _ _ _ hpre]
      rcases hact with rfl | rfl | ⟨v, rfl⟩
      · rw [List.singleton_append, parse_loop_cons _ _ _ _ (by decide), parse_option_eq]
        simp [hc]
      · rw [List.singleton_append, parse_loop_cons _ _ _ _ (by decide), parse_option_eq]
        simp [hc]
      · rw [List.cons_append, List.singleton_append, parse_loop_cons _ _ _ _ (by decide),
          parse_option_eq]
        simp [hc]
    rw [parse_args_eq, if_neg hne, hloop]

/-- C2 (witness): `-r` alone is accepted with one action flag set, and the
arguments `-r -w 50` are rejected with status 1 and the conflicting-options
message. -/
theorem C2_parse_args_exclusive_witness :
    (parse_args ["-r"] State.init =
      (Outcome.ret (), { parse_args_init State.init with get_backlight := 1 }) ∧
     actions_selected { parse_args_init State.init with get_backlight := 1 } ≤ 1) ∧
    (is_action_option ["-w", "50"] ∧
     parse_loop ["-r"] ParseLocals.init (parse_args_init State.init) =
       (Outcome.ret ({ conflicting_args := 1, cmdline_brightness := none }, []),
         { parse_args_init State.init with get_backlight := 1 }) ∧
     parse_args ["-r", "-w", "50"] State.init =
       (Outcome.exit 1,
         ({ parse_args_init State.init with get_backlight := 1 } : State).with_stderr
           MSG_CONFLICT)) :=
  ⟨⟨by decide, (C2_parse_args_exclusive ["-r"] State.init).1 _ (by decide)⟩,
   Or.inr (Or.inr ⟨"50", rfl⟩), by decide,
   (C2_parse_args_exclusive ["-r", "-w", "50"] State.init).2 ["-r"] ["-w", "50"] []
     { conflicting_args := 1, cmdline_brightness := none } _ (by decide)
     (Or.inr (Or.inr ⟨"50", rfl⟩)) (by decide) (by decide)⟩

/-! ## The accessors and validators as case tables -/

theorem get_max_brightness_eq (env : Env) (s : State) :
    get_max_brightness env s =
      match env.fopen_r s.max_brightness_file with
      | none =>
        (Outcome.exit 1, s.log [Event.fopen s.max_brightness_file "r",
          Event.stderr "Error occured while trying to open max_brightness file.\n"])
      | some content =>
        if fscanf_d content < 0 then
          (Outcome.exit 1, s.log [Event.fopen s.max_brightness_file "r",
            Event.fscanf s.max_brightness_file,
            Event.stderr "Could not read maximum brightness from max_brightness file.\n"])
        else
          (Outcome.ret (to_unsigned (fscanf_d content)),
            s.log [Event.fopen s.max_brightness_file "r", Event.fscanf s.max_brightness_file,
              Event.fclose s.max_brightness_file]) := by
  unfold get_max_brightness State.max_brightness_file
  cases hf : env.fopen_r (attribute_path s.backlight_path "/max_brightness") with
  | none =>
    simp [prog_bind, Prog.bind, get_state_apply, emit_apply, exit_apply, hf, State.log]
  | some content =>
    by_cases hneg : fscanf_d content < 0
    · simp [prog_bind, Prog.bind, get_state_apply, emit_apply, exit_apply, hf, State.log, hneg]
    · simp [prog_bind, Prog.bind, get_state_apply, emit_apply, exit_apply, hf, State.log, hneg]

theorem get_current_brightness_eq (env : Env) (s : State) :
    get_current_brightness env s =
      match env.fopen_r s.brightness_file with
      | none =>
        (Outcome.exit 1, s.log [Event.fopen s.brightness_file "r",
          Event.stderr "Error occured while trying to open brightness file.\n"])
      | some content =>
        if fscanf_d content < 0 then
          (Outcome.exit 1, s.log [Event.fopen s.brightness_file "r",
            Event.fscanf s.brightness_file,
            Event.stderr "Could not read brightness from brightness file.\n"])
        else
          (Outcome.ret (to_unsigned (fscanf_d content)),
            s.log [Event.fopen s.brightness_file "r", Event.fscanf s.brightness_file,
              Event.fclose s.brightness_file]) := by
  unfold get_current_brightness State.brightness_file
  cases hf : env.fopen_r (attribute_path s.backlight_path "/brightness") with
  | none =>
    simp [prog_bind, Prog.bind, get_state_apply, emit_apply, exit_apply, hf, State.log]
  | some content =>
    by_cases hneg : fscanf_d content < 0
    · simp [prog_bind, Prog.bind, get_state_apply, emit_apply, exit_apply, hf, State.log, hneg]
    · simp [prog_bind, Prog.bind, get_state_apply, emit_apply, exit_apply, hf, State.log, hneg]

theorem set_current_brightness_eq (env : Env) (bright : Nat) (s : State) :
    set_current_brightness env bright s =
      if env.fopen_w s.brightness_file = false then
        (Outcome.exit 1, s.log [Event.fopen s.brightness_file "w",
          Event.stderr "Error occured while trying to open brightness file.\n"])
      else if env.fprintf_ok s.brightness_file = false then
        (Outcome.exit 1, s.log [Event.fopen s.brightness_file "w",
          Event.fprintf s.brightness_file (format_d bright),
          Event.stderr "Could not write brightness to brightness file.\n"])
      else
        (Outcome.ret (), s.log [Event.fopen s.brightness_file "w",
          Event.fprintf s.brightness_file (format_d bright),
          Event.fclose s.brightness_file]) := by
  unfold set_current_brightness State.brightness_file
  by_cases hw : env.fopen_w (attribute_path s.backlight_path "/brightness") = false
  · simp [prog_bind, Prog.bind, get_state_apply, emit_apply, exit_apply, hw, State.log]
  · by_cases hp : env.fprintf_ok (attribute_path s.backlight_path "/brightness") = false
    · simp [prog_bind, Prog.bind, get_state_apply, emit_apply, exit_apply, hw, hp, State.log]
    · simp [prog_bind, Prog.bind, get_state_apply, emit_apply, exit_apply, hw, hp, State.log]

theorem validate_args_eq (s : State) :
    validate_args s =
      if (s.values_as_percentages ≠ 0 ∧ (s.brightness < 0 ∨ s.brightness > 100)) ∨
         (s.values_as_percentages = 0 ∧
           (s.brightness < 0 ∨ to_unsigned s.brightness > s.maximum))
      then (Outcome.exit 1, s.with_stderr MSG_INVALID)
      else (Outcome.ret (), s) := by
  unfold validate_args
  by_cases hp : s.values_as_percentages = 0
  · by_cases hb : s.brightness < 0 ∨ to_unsigned s.brightness > s.maximum
    · simp [prog_bind, Prog.bind, get_state_apply, emit_apply, exit_apply, hp, hb,
        State.with_stderr]
    · simp [prog_bind, Prog.bind, get_state_apply, emit_apply, exit_apply, hp, hb]
  · by_cases hb : s.brightness < 0 ∨ s.brightness > 100
    · simp [prog_bind, Prog.bind, get_state_apply, emit_apply, exit_apply, hp, hb,
        State.with_stderr]
    · simp [prog_bind, Prog.bind, get_state_apply, emit_apply, exit_apply, hp, hb]

theorem validate_control_directory_eq (env : Env) (s : State) :
    validate_control_directory env s =
      if env.opendir s.backlight_path = DirOpen.other then
        (Outcome.exit 1, s.log (opendir_events s.backlight_path DirOpen.other))
      else if env.access (s.checked_path "/brightness") = false then
        (Outcome.exit 1, s.log (opendir_events s.backlight_path (env.opendir s.backlight_path) ++
          [Event.access (s.checked_path "/brightness"),
           Event.stderr "Control directory exists but could not find brightness control file.\n"]))
      else if env.access (s.checked_path "/max_brightness") = false then
        (Outcome.exit 1, s.log (opendir_events s.backlight_path (env.opendir s.backlight_path) ++
          [Event.access (s.checked_path "/brightness"),
           Event.access (s.checked_path "/max_brightness"),
           Event.stderr "Control directory exists but could not find max_brightness file.\n"]))
      else
        (Outcome.ret (), s.log (opendir_events s.backlight_path (env.opendir s.backlight_path) ++
          [Event.access (s.checked_path "/brightness"),
           Event.access (s.checked_path "/max_brightness")])) := by
  unfold validate_control_directory State.checked_path
  cases hd : env.opendir s.backlight_path <;>
  by_cases h1 : env.access
      (strlcat (strlcpy s.backlight_path MAX_PATH_LEN) "/brightness" EXTRA_PATH_LEN) = false <;>
  by_cases h2 : env.access
      (strlcat (strlcpy s.backlight_path MAX_PATH_LEN) "/max_brightness" EXTRA_PATH_LEN) = false <;>
  simp [prog_bind, Prog.bind, get_state_apply, emit_apply, exit_apply, hd, h1, h2, State.log,
    opendir_events]

theorem then_exit0_bind (m : Prog Unit) (s : State) :
    (m >>= fun _ => (exit 0 : Prog Unit)) s = then_exit0 (m s) := by
  rw [prog_bind]
  unfold Prog.bind then_exit0
  rcases m s with ⟨o, s1⟩
  cases o <;> rfl

/-- The function `main` after its three preparatory steps returned: a write
value out of bounds ends it in `validate_args`, otherwise the selected action
runs and `exit(0)` follows. -/
theorem main_after_setup (env : Env) (argv0 : String) (args : List String) (st s1 s2 s3 : State)
    (m : Nat)
    (h1 : parse_args args { st with argv0 := argv0 } = (Outcome.ret (), s1))
    (h2 : validate_control_directory env s1 = (Outcome.ret (), s2))
    (h3 : get_max_brightness env s2 = (Outcome.ret m, s3)) :
    main env argv0 args st =
      if s3.set_backlight ≠ 0 ∧
          validate_args (s3.with_maximum m) ≠ (Outcome.ret (), (s3.with_maximum m))
      then (Outcome.exit 1, (s3.with_maximum m).with_stderr MSG_INVALID)
      else if s3.get_backlight ≠ 0 then
        then_exit0 (read_backlight_brightness env (s3.with_maximum m))
      else if s3.set_backlight ≠ 0 then
        then_exit0 (write_backlight_brightness env (s3.with_maximum m))
      else if s3.max_brightness ≠ 0 then
        then_exit0 (read_maximum_brightness (s3.with_maximum m))
      else (Outcome.exit 0, (s3.with_maximum m).with_stderr MSG_PARSE) := by
  unfold State.with_maximum
  have hva := validate_args_eq { s3 with maximum := m }
  unfold main
  simp only [prog_bind, Prog.bind, modify_state_apply, h1, h2, h3, get_state_apply]
  by_cases hset : s3.set_backlight ≠ 0
  · simp only [if_pos hset]
    split_ifs at hva with hbad
    · have hne : validate_args { s3 with maximum := m } ≠
          (Outcome.ret (), { s3 with maximum := m }) := by rw [hva]; simp
      rw [prog_bind_exit _ _ _ _ _ hva, if_pos ⟨hset, hne⟩]
    · have hne : ¬ (s3.set_backlight ≠ 0 ∧ validate_args { s3 with maximum := m } ≠
          (Outcome.ret (), { s3 with maximum := m })) := by rw [hva]; simp
      rw [prog_bind_ret _ _ _ _ _ hva, if_neg hne]
      by_cases hget : s3.get_backlight ≠ 0
      · simp only [if_pos hget]
        exact then_exit0_bind _ _
      · simp only [if_neg hget]
        exact then_exit0_bind _ _
  · have hne : ¬ (s3.set_backlight ≠ 0 ∧ validate_args { s3 with maximum := m } ≠
        (Outcome.ret (), { s3 with maximum := m })) := fun h => hset h.1
    simp only [if_neg hset, if_neg hne]
    rw [prog_bind_ret (pure PUnit.unit) _ _ _ PUnit.unit rfl]
    by_cases hget : s3.get_backlight ≠ 0
    · simp only [if_pos hget]
      exact then_exit0_bind _ _
    · simp only [if_neg hget]
      by_cases hmax : s3.max_brightness ≠ 0
      · simp only [if_pos hmax]
        exact then_exit0_bind _ _
      · simp only [if_neg hmax]
        rfl

/-! ## From `parse_args` to the dispatch in `main` -/

theorem attribute_path_eq (bp name : String) (hn : name.data.length ≤ 20) :
    attribute_path bp name = ⟨bp.data.take 199 ++ name.data⟩ := by
  unfold attribute_path strlcat strlcpy MAX_PATH_LEN EXTRA_PATH_LEN
  have hlen : (List.take (200 - 1) bp.data).length ≤ 199 := by
    simp only [List.length_take]; omega
  rw [if_neg (by simp only [List.length_take] at hlen ⊢; omega)]
  congr 2
  apply List.take_of_length_le
  simp only [List.length_take] at hlen ⊢
  omega

theorem attribute_files_differ (s : State) : s.max_brightness_file ≠ s.brightness_file := by
  unfold State.max_brightness_file State.brightness_file
  rw [attribute_path_eq _ _ (by decide), attribute_path_eq _ _ (by decide)]
  intro h
  have h1 := congrArg String.data h
  have h2 := List.append_cancel_left h1
  revert h2
  decide

theorem validate_control_directory_ret (env : Env) (s s2 : State)
    (h : validate_control_directory env s = (Outcome.ret (), s2)) :
    ∃ es, s2 = s.log es ∧ ∀ e ∈ es, ∀ p, touches_file p e = false := by
  rw [validate_control_directory_eq] at h
  split_ifs at h <;> simp only [Prod.mk.injEq, reduceCtorEq, false_and, true_and] at h
  subst h
  refine ⟨_, rfl, ?_⟩
  intro e he p
  cases hd : env.opendir s.backlight_path <;> rw [hd] at he <;>
    simp only [opendir_events, List.cons_append, List.nil_append, List.mem_cons,
      List.mem_singleton, List.not_mem_nil, or_false] at he <;>
    rcases he with rfl | rfl | rfl | rfl | rfl <;> rfl

theorem get_max_brightness_ret (env : Env) (s s3 : State) (m : Nat)
    (h : get_max_brightness env s = (Outcome.ret m, s3)) :
    s3 = s.log [Event.fopen s.max_brightness_file "r", Event.fscanf s.max_brightness_file,
      Event.fclose s.max_brightness_file] ∧ m ≤ INT_MAX := by
  rw [get_max_brightness_eq] at h
  cases hf : env.fopen_r s.max_brightness_file with
  | none => rw [hf] at h; simp at h
  | some content =>
    rw [hf] at h
    simp only at h
    split_ifs at h with hneg
    · simp at h
    · simp only [Prod.mk.injEq, Outcome.ret.injEq] at h
      obtain ⟨rfl, rfl⟩ := h
      refine ⟨rfl, ?_⟩
      have h0 : 0 ≤ fscanf_d content := by omega
      have h1 : fscanf_d content ≤ (INT_MAX : Int) := by
        unfold fscanf_d
        split
        · exact to_int_le _
        · unfold INT_MAX; omega
      have := to_unsigned_nonneg _ h0 h1
      omega

/-! ## Bounds of the value to write -/

theorem validate_args_iff (s : State) (h0 : 0 ≤ s.brightness) (h1 : s.brightness ≤ 99999) :
    validate_args s = (Outcome.ret (), s) ↔ write_value_in_range s := by
  rw [validate_args_eq]
  have hu := to_unsigned_nonneg s.brightness h0 (by unfold INT_MAX; omega)
  unfold write_value_in_range
  by_cases hC : (s.values_as_percentages ≠ 0 ∧ (s.brightness < 0 ∨ s.brightness > 100)) ∨
      (s.values_as_percentages = 0 ∧ (s.brightness < 0 ∨ to_unsigned s.brightness > s.maximum))
  · rw [if_pos hC]
    constructor
    · intro h; exact absurd (congrArg Prod.fst h) (by simp)
    · intro hin
      rcases hC with ⟨hp, hb⟩ | ⟨hp, hb⟩
      · rw [if_pos hp] at hin; omega
      · rw [if_neg (fun h => h hp)] at hin; omega
  · rw [if_neg hC]
    constructor
    · intro _
      by_cases hp : s.values_as_percentages ≠ 0
      · rw [if_pos hp]
        by_contra hn
        exact hC (Or.inl ⟨hp, by omega⟩)
      · rw [if_neg hp]
        by_contra hn
        exact hC (Or.inr ⟨by simpa using hp, by omega⟩)
    · intro _; rfl

/-- C4: for every write action (the three preparatory steps of `main` returned
and `-w` was selected), `validate_args` lets the run go on to the write exactly
when the value is within bounds, `[0, 100]` in percentage mode and
`[0, maximum]` otherwise; out of bounds the process exits with status 1 after
the "Invalid argument" message and no event of the run touches the brightness
file. -/
theorem C4_write_value_bounds (env : Env) (argv0 : String) (args : List String)
    (s1 s2 s3 : State) (m : Nat)
    (h1 : parse_args args (State.start argv0) = (Outcome.ret (), s1))
    (h2 : validate_control_directory env s1 = (Outcome.ret (), s2))
    (h3 : get_max_brightness env s2 = (Outcome.ret m, s3))
    (hset : s1.set_backlight ≠ 0) :
    (validate_args (s3.with_maximum m) = (Outcome.ret (), s3.with_maximum m) ↔
      write_value_in_range (s3.with_maximum m)) ∧
    (write_value_in_range (s3.with_maximum m) →
      run env argv0 args = then_exit0 (write_backlight_brightness env (s3.with_maximum m))) ∧
    (¬ write_value_in_range (s3.with_maximum m) →
      run env argv0 args = (Outcome.exit 1, (s3.with_maximum m).with_stderr MSG_INVALID) ∧
      ∀ e ∈ (run env argv0 args).2.trace,
        touches_file (run env argv0 args).2.brightness_file e = false) := by
  obtain ⟨htr, hact, hrange⟩ := parse_args_ret _ _ _ h1
  obtain ⟨hb0, hb1⟩ := hrange hset
  obtain ⟨es, hs2, hes⟩ := validate_control_directory_ret env s1 s2 h2
  obtain ⟨hs3, _⟩ := get_max_brightness_ret env s2 s3 m h3
  have hset3 : s3.set_backlight ≠ 0 := by rw [hs3, hs2]; exact hset
  have hget3 : ¬ s3.get_backlight ≠ 0 := by
    rw [hs3, hs2]
    show ¬ s1.get_backlight ≠ 0
    unfold actions_selected at hact
    intro hg
    rw [if_pos hg, if_pos hset] at hact
    omega
  have hiff := validate_args_iff (s3.with_maximum m)
    (by rw [hs3, hs2]; exact hb0) (by rw [hs3, hs2]; exact hb1)
  have hmain := main_after_setup env argv0 args State.init s1 s2 s3 m h1 h2 h3
  refine ⟨hiff, ?_, ?_⟩
  · intro hin
    have hv := hiff.2 hin
    unfold run
    rw [hmain, if_neg (fun h => h.2 hv), if_neg hget3, if_pos hset3]
  · intro hout
    have hv : validate_args (s3.with_maximum m) ≠ (Outcome.ret (), s3.with_maximum m) :=
      fun h => hout (hiff.1 h)
    have hrun : run env argv0 args =
        (Outcome.exit 1, (s3.with_maximum m).with_stderr MSG_INVALID) := by
      unfold run
      rw [hmain, if_pos ⟨hset3, hv⟩]
    refine ⟨hrun, ?_⟩
    rw [hrun]
    intro e he
    have hbf : ((s3.with_maximum m).with_stderr MSG_INVALID).brightness_file =
        s1.brightness_file := by
      rw [hs3, hs2]; rfl
    have hmf : s2.max_brightness_file = s1.max_brightness_file := by rw [hs2]; rfl
    have hdiff := attribute_files_differ s1
    have htrace : ((s3.with_maximum m).with_stderr MSG_INVALID).trace =
        es ++ [Event.fopen s1.max_brightness_file "r", Event.fscanf s1.max_brightness_file,
          Event.fclose s1.max_brightness_file, Event.stderr MSG_INVALID] := by
      rw [hs3, hmf, hs2]
      show ((s1.trace ++ es) ++ _) ++ _ = _
      rw [htr]
      simp [State.init, State.start]
    simp only [] at he ⊢
    rw [hbf]
    rw [htrace] at he
    rcases List.mem_append.1 he with h | h
    · exact hes e h _
    · simp only [List.mem_cons, List.mem_singleton, List.not_mem_nil, or_false] at h
      rcases h with rfl | rfl | rfl | rfl <;> simp [touches_file, hdiff]

/-- C4 (witness): `-w 150` without `-p` and maximum 100 is rejected with
status 1, the brightness file untouched. -/
theorem C4_write_value_bounds_witness :
    parse_args ["-w", "150"] (State.start "brightlight") =
      (Outcome.ret (), state_w150_parsed) ∧
    validate_control_directory env_max100 state_w150_parsed =
      (Outcome.ret (), state_w150_validated) ∧
    get_max_brightness env_max100 state_w150_validated =
      (Outcome.ret 100, state_w150_max_read) ∧
    state_w150_parsed.set_backlight ≠ 0 ∧
    ¬ write_value_in_range (state_w150_max_read.with_maximum 100) ∧
    run env_max100 "brightlight" ["-w", "150"] =
      (Outcome.exit 1, (state_w150_max_read.with_maximum 100).with_stderr MSG_INVALID) ∧
    ∀ e ∈ (run env_max100 "brightlight" ["-w", "150"]).2.trace,
      touches_file (run env_max100 "brightlight" ["-w", "150"]).2.brightness_file e = false :=
  ⟨by decide, by decide, by decide, by decide, by decide,
   (C4_write_value_bounds env_max100 "brightlight" ["-w", "150"] state_w150_parsed
     state_w150_validated state_w150_max_read 100 (by decide) (by decide) (by decide)
     (by decide)).2.2 (by decide)⟩

/-! ## The three actions as case tables -/

theorem to_percentage_call_eq (v : Nat) (s : State) :
    to_percentage_call v s =
      match to_percentage s.maximum v with
      | some r => (Outcome.ret r, s)
      | none => (Outcome.fault Fault.div_by_zero, s) := by
  unfold to_percentage_call
  cases h : to_percentage s.maximum v <;>
    simp [prog_bind, Prog.bind, get_state_apply, h, fault]

theorem read_maximum_brightness_eq (s : State) :
    read_maximum_brightness s =
      if s.values_as_percentages ≠ 0 then
        match to_percentage s.maximum s.maximum with
        | some outval =>
          (Outcome.ret (), s.log [Event.stdout
            ("Maximum backlight brightness is: " ++ format_d outval ++ "%." ++ "\n")])
        | none => (Outcome.fault Fault.div_by_zero, s)
      else
        (Outcome.ret (), s.log [Event.stdout
          ("Maximum backlight brightness is: " ++ format_d s.maximum ++ "." ++ "\n")]) := by
  unfold read_maximum_brightness
  by_cases hp : s.values_as_percentages ≠ 0
  · cases h : to_percentage s.maximum s.maximum <;>
      simp [prog_bind, Prog.bind, get_state_apply, hp, h, to_percentage_call_eq, emit_apply,
        State.log]
  · have hp0 : s.values_as_percentages = 0 := by simpa using hp
    simp [prog_bind, Prog.bind, get_state_apply, hp0, emit_apply, State.log]

theorem read_backlight_brightness_eq (env : Env) (s : State) :
    read_backlight_brightness env s =
      match get_current_brightness env s with
      | (Outcome.ret cur, sc) =>
        if sc.values_as_percentages ≠ 0 then
          match to_percentage sc.maximum (to_unsigned (to_int cur)) with
          | some outval =>
            (Outcome.ret (), ({ sc with brightness := to_int cur } : State).log [Event.stdout
              ("Current backlight brightness is: " ++ format_d outval ++ "%." ++ "\n")])
          | none => (Outcome.fault Fault.div_by_zero, { sc with brightness := to_int cur })
        else
          (Outcome.ret (), ({ sc with brightness := to_int cur } : State).log [Event.stdout
            ("Current backlight brightness is: " ++ format_d (to_unsigned (to_int cur)) ++ "."
              ++ "\n")])
      | (Outcome.exit n, sc) => (Outcome.exit n, sc)
      | (Outcome.fault w, sc) => (Outcome.fault w, sc) := by
  unfold read_backlight_brightness
  rcases hc : get_current_brightness env s with ⟨o, sc⟩
  cases o with
  | ret cur =>
    by_cases hp : sc.values_as_percentages ≠ 0
    · cases h : to_percentage sc.maximum (to_unsigned (to_int cur)) <;>
        simp [prog_bind, Prog.bind, get_state_apply, modify_state_apply, hc, hp, h,
          to_percentage_call_eq, emit_apply, State.log]
    · have hp0 : sc.values_as_percentages = 0 := by simpa using hp
      simp [prog_bind, Prog.bind, get_state_apply, modify_state_apply, hc, hp0, emit_apply,
        State.log]
  | exit n => simp [prog_bind, Prog.bind, hc]
  | fault w => simp [prog_bind, Prog.bind, hc]

theorem write_backlight_brightness_eq (env : Env) (s : State) :
    write_backlight_brightness env s =
      match get_current_brightness env s with
      | (Outcome.ret current, sc) =>
        if sc.values_as_percentages ≠ 0 then
          match to_percentage sc.maximum current with
          | some oldval =>
            (match set_current_brightness env
                (from_percentage sc.maximum (to_unsigned sc.brightness)) sc with
             | (Outcome.ret _, sw) =>
               (Outcome.ret (), sw.log [Event.stdout ("Changed backlight brightness: " ++
                 format_d oldval ++ "% " ++ "=> " ++ toString sc.brightness ++ "%." ++ "\n")])
             | (Outcome.exit n, sw) => (Outcome.exit n, sw)
             | (Outcome.fault w, sw) => (Outcome.fault w, sw))
          | none => (Outcome.fault Fault.div_by_zero, sc)
        else
          (match set_current_brightness env (to_unsigned sc.brightness) sc with
           | (Outcome.ret _, sw) =>
             (Outcome.ret (), sw.log [Event.stdout ("Changed backlight brightness: " ++
               format_d current ++ " " ++ "=> " ++ toString sc.brightness ++ "." ++ "\n")])
           | (Outcome.exit n, sw) => (Outcome.exit n, sw)
           | (Outcome.fault w, sw) => (Outcome.fault w, sw))
      | (Outcome.exit n, sc) => (Outcome.exit n, sc)
      | (Outcome.fault w, sc) => (Outcome.fault w, sc) := by
  unfold write_backlight_brightness
  rcases hc : get_current_brightness env s with ⟨o, sc⟩
  cases o with
  | ret cur =>
    by_cases hp : sc.values_as_percentages ≠ 0
    · cases h : to_percentage sc.maximum cur with
      | none =>
        simp [prog_bind, Prog.bind, get_state_apply, hc, hp, h, to_percentage_call_eq,
          from_percentage_call]
      | some oldval =>
        rcases hw : set_current_brightness env
          (from_percentage sc.maximum (to_unsigned sc.brightness)) sc with ⟨o2, sw⟩
        cases o2 <;>
          simp [prog_bind, Prog.bind, get_state_apply, hc, hp, h, to_percentage_call_eq,
            from_percentage_call, hw, emit_apply, State.log]
    · have hp0 : sc.values_as_percentages = 0 := by simpa using hp
      rcases hw : set_current_brightness env (to_unsigned sc.brightness) sc with ⟨o2, sw⟩
      cases o2 <;>
        simp [prog_bind, Prog.bind, get_state_apply, hc, hp0, hw, emit_apply, State.log]
  | exit n => simp [prog_bind, Prog.bind, hc]
  | fault w => simp [prog_bind, Prog.bind, hc]

/-! ## The write action -/

theorem get_current_brightness_ret (env : Env) (s sc : State) (cur : Nat)
    (h : get_current_brightness env s = (Outcome.ret cur, sc)) :
    sc = s.log [Event.fopen s.brightness_file "r", Event.fscanf s.brightness_file,
      Event.fclose s.brightness_file] ∧ cur ≤ INT_MAX := by
  rw [get_current_brightness_eq] at h
  cases hf : env.fopen_r s.brightness_file with
  | none => rw [hf] at h; simp at h
  | some content =>
    rw [hf] at h
    simp only at h
    split_ifs at h with hneg
    · simp at h
    · simp only [Prod.mk.injEq, Outcome.ret.injEq] at h
      obtain ⟨rfl, rfl⟩ := h
      refine ⟨rfl, ?_⟩
      have h0 : 0 ≤ fscanf_d content := by omega
      have h1 : fscanf_d content ≤ (INT_MAX : Int) := by
        unfold fscanf_d
        split
        · exact to_int_le _
        · unfold INT_MAX; omega
      have := to_unsigned_nonneg _ h0 h1
      omega

theorem get_current_brightness_no_fault (env : Env) (s sc : State) (w : Fault) :
    get_current_brightness env s ≠ (Outcome.fault w, sc) := by
  rw [get_current_brightness_eq]
  cases hf : env.fopen_r s.brightness_file with
  | none => simp
  | some content =>
    simp only
    split_ifs <;> simp

theorem set_current_brightness_ret (env : Env) (bright : Nat) (s sw : State)
    (h : set_current_brightness env bright s = (Outcome.ret (), sw)) :
    sw = s.log [Event.fopen s.brightness_file "w",
      Event.fprintf s.brightness_file (format_d bright), Event.fclose s.brightness_file] := by
  rw [set_current_brightness_eq] at h
  split_ifs at h <;> simp only [Prod.mk.injEq, reduceCtorEq, false_and, true_and] at h
  exact h.symm

theorem set_current_brightness_no_fault (env : Env) (bright : Nat) (s sw : State) (w : Fault) :
    set_current_brightness env bright s ≠ (Outcome.fault w, sw) := by
  rw [set_current_brightness_eq]
  split_ifs <;> simp

theorem format_d_nat (u : Nat) (h : u ≤ INT_MAX) : format_d u = toString u := by
  unfold format_d
  rw [to_int_small u h]
  rfl

/-- C5 (counterexample): with maximum 42949673, `-p -w 100` succeeds and
writes "0", whereas `floor(100 * 42949673 / 100)` is 42949673. -/
theorem C5_counterexample :
    (run env_huge "brightlight" ["-p", "-w", "100"]).1 = Outcome.exit 0 ∧
    (run env_huge "brightlight" ["-p", "-w", "100"]).2.maximum = 42949673 ∧
    Event.fprintf (BACKLIGHT_PATH ++ "/brightness") "0" ∈
      (run env_huge "brightlight" ["-p", "-w", "100"]).2.trace ∧
    100 * 42949673 / 100 ≠ 0 := by
  decide

/-- C5 (amended): for every successful write action with supplied value `v`
and maximum `m`, exactly one text is written to the brightness file: the decimal
digits of `v` in raw mode, and of `((v * m) mod 2^32) / 100` in percentage
mode, which is `floor(v * m / 100)` whenever `v * m < 2^32`. -/
theorem C5_written_value (env : Env) (s s1 : State) (v : Nat)
    (hv : s.brightness = (v : Int)) (hv5 : v ≤ 99999)
    (hret : write_backlight_brightness env s = (Outcome.ret (), s1)) :
    (∃ report, s1.trace = s.trace ++
      [Event.fopen s.brightness_file "r", Event.fscanf s.brightness_file,
       Event.fclose s.brightness_file, Event.fopen s.brightness_file "w",
       Event.fprintf s.brightness_file
         (toString (if s.values_as_percentages ≠ 0 then (v * s.maximum) % UINT_MOD / 100 else v)),
       Event.fclose s.brightness_file, Event.stdout report]) ∧
    (v * s.maximum < UINT_MOD → (v * s.maximum) % UINT_MOD / 100 = v * s.maximum / 100) := by
  refine ⟨?_, fun h => by rw [Nat.mod_eq_of_lt h]⟩
  rw [write_backlight_brightness_eq] at hret
  rcases hc : get_current_brightness env s with ⟨o, sc⟩
  rw [hc] at hret
  cases o with
  | exit n => simp at hret
  | fault w => simp at hret
  | ret cur =>
    obtain ⟨hsc, _⟩ := get_current_brightness_ret env s sc cur hc
    have hbr : sc.brightness = (v : Int) := by rw [hsc]; exact hv
    have hu : to_unsigned sc.brightness = v := by
      have := to_unsigned_nonneg sc.brightness (by omega) (by unfold INT_MAX; omega)
      omega
    have hpct : sc.values_as_percentages = s.values_as_percentages := by rw [hsc]; rfl
    have hmax : sc.maximum = s.maximum := by rw [hsc]; rfl
    have hbf : sc.brightness_file = s.brightness_file := by rw [hsc]; rfl
    have htr : sc.trace = s.trace ++ [Event.fopen s.brightness_file "r",
        Event.fscanf s.brightness_file, Event.fclose s.brightness_file] := by rw [hsc]; rfl
    simp only at hret
    rw [hu, hpct, hmax] at hret
    by_cases hp : s.values_as_percentages ≠ 0
    · rw [if_pos hp] at hret
      rw [if_pos hp]
      cases htp : to_percentage s.maximum cur with
      | none => rw [htp] at hret; simp at hret
      | some oldval =>
        rw [htp] at hret
        simp only at hret
        rcases hw : set_current_brightness env (from_percentage s.maximum v) sc with ⟨o2, sw⟩
        rw [hw] at hret
        cases o2 with
        | exit n => simp at hret
        | fault w => simp at hret
        | ret u =>
          have hsw := set_current_brightness_ret env _ sc sw hw
          simp only [Prod.mk.injEq, true_and] at hret
          subst hret
          have hle : from_percentage s.maximum v ≤ INT_MAX := by
            unfold from_percentage
            have : v * s.maximum % UINT_MOD < UINT_MOD := Nat.mod_lt _ (by decide)
            unfold UINT_MOD at this ⊢
            unfold INT_MAX
            omega
          refine ⟨"Changed backlight brightness: " ++ format_d oldval ++ "% " ++ "=> " ++
            toString sc.brightness ++ "%." ++ "\n", ?_⟩
          rw [hsw, hbf, format_d_nat _ hle]
          show ((sc.trace ++ _) ++ _) = _
          rw [htr]
          simp [from_percentage]
    · rw [if_neg hp] at hret
      rw [if_neg hp]
      rcases hw : set_current_brightness env v sc with ⟨o2, sw⟩
      rw [hw] at hret
      cases o2 with
      | exit n => simp at hret
      | fault w => simp at hret
      | ret u =>
        have hsw := set_current_brightness_ret env _ sc sw hw
        simp only [Prod.mk.injEq, true_and] at hret
        subst hret
        refine ⟨"Changed backlight brightness: " ++ format_d cur ++ " " ++ "=> " ++
          toString sc.brightness ++ "." ++ "\n", ?_⟩
        rw [hsw, hbf, format_d_nat _ (by unfold INT_MAX; omega)]
        show ((sc.trace ++ _) ++ _) = _
        rw [htr]
        simp

/-- C5 (witness): maximum 255: `-w 64` writes "64", and `-p -w 25` writes
"63". -/
theorem C5_written_value_witness :
    state_w64.brightness = ((64 : Nat) : Int) ∧ 64 ≤ 99999 ∧
    write_backlight_brightness env_example state_w64 =
      (Outcome.ret (), (write_backlight_brightness env_example state_w64).2) ∧
    ((∃ report, (write_backlight_brightness env_example state_w64).2.trace = state_w64.trace ++
      [Event.fopen state_w64.brightness_file "r", Event.fscanf state_w64.brightness_file,
       Event.fclose state_w64.brightness_file, Event.fopen state_w64.brightness_file "w",
       Event.fprintf state_w64.brightness_file
         (toString (if state_w64.values_as_percentages ≠ 0
           then (64 * state_w64.maximum) % UINT_MOD / 100 else 64)),
       Event.fclose state_w64.brightness_file, Event.stdout report]) ∧
     (64 * state_w64.maximum < UINT_MOD →
       (64 * state_w64.maximum) % UINT_MOD / 100 = 64 * state_w64.maximum / 100)) ∧
    Event.fprintf (BACKLIGHT_PATH ++ "/brightness") "64" ∈
      (run env_example "brightlight" ["-w", "64"]).2.trace ∧
    Event.fprintf (BACKLIGHT_PATH ++ "/brightness") "63" ∈
      (run env_example "brightlight" ["-p", "-w", "25"]).2.trace :=
  ⟨by decide, by decide, by decide,
   C5_written_value env_example state_w64 _ 64 (by decide) (by decide) (by decide),
   by decide, by decide⟩

/-! ## A maximum of zero -/

/-- C9 (counterexample): with `max_brightness` holding 0, `-m -p` is not
stopped by a configuration error: `get_max_brightness` returns 0 and the run
ends in `to_percentage` with a division by zero. -/
theorem C9_counterexample :
    (get_max_brightness env_zero (parse_args ["-m", "-p"] (State.start "brightlight")).2).1 =
      Outcome.ret 0 ∧
    (run env_zero "brightlight" ["-m", "-p"]).1 = Outcome.fault Fault.div_by_zero := by
  decide

/-- C9 (amended): division by zero in `to_percentage` is not guarded.
`get_max_brightness` returns 0 when that is what `max_brightness` holds, and
with `maximum == 0`: without percentage mode no action evaluates
`to_percentage` (no action ends in a division by zero, read-maximum prints 0);
in percentage mode read-maximum divides by zero at once, and read-current and
write divide by zero as soon as the brightness has been read, before anything
is written. -/
theorem C9_zero_maximum (env : Env) (s : State) (hm : s.maximum = 0) :
    (∀ content, env.fopen_r s.max_brightness_file = some content → fscanf_d content = 0 →
      (get_max_brightness env s).1 = Outcome.ret 0) ∧
    (s.values_as_percentages = 0 →
      read_maximum_brightness s = (Outcome.ret (), s.log [Event.stdout
        ("Maximum backlight brightness is: " ++ format_d 0 ++ "." ++ "\n")]) ∧
      (read_backlight_brightness env s).1 ≠ Outcome.fault Fault.div_by_zero ∧
      (write_backlight_brightness env s).1 ≠ Outcome.fault Fault.div_by_zero) ∧
    (s.values_as_percentages ≠ 0 →
      read_maximum_brightness s = (Outcome.fault Fault.div_by_zero, s) ∧
      ∀ cur sc, get_current_brightness env s = (Outcome.ret cur, sc) →
        (read_backlight_brightness env s).1 = Outcome.fault Fault.div_by_zero ∧
        write_backlight_brightness env s = (Outcome.fault Fault.div_by_zero, sc)) := by
  refine ⟨?_, ?_, ?_⟩
  · intro content hf h0
    rw [get_max_brightness_eq, hf]
    simp only
    rw [if_neg (by omega), h0]
    rfl
  · intro hp
    have hp2 : ¬ s.values_as_percentages ≠ 0 := fun h => h hp
    refine ⟨?_, ?_, ?_⟩
    · rw [read_maximum_brightness_eq, if_neg hp2, hm]
    · rw [read_backlight_brightness_eq]
      rcases hc : get_current_brightness env s with ⟨o, sc⟩
      cases o with
      | ret cur =>
        obtain ⟨hsc, _⟩ := get_current_brightness_ret env s sc cur hc
        have hpc : ¬ sc.values_as_percentages ≠ 0 := by rw [hsc]; exact hp2
        simp only [if_neg hpc]
        simp
      | exit n => simp
      | fault w => exact absurd hc (get_current_brightness_no_fault env s sc w)
    · rw [write_backlight_brightness_eq]
      rcases hc : get_current_brightness env s with ⟨o, sc⟩
      cases o with
      | ret cur =>
        obtain ⟨hsc, _⟩ := get_current_brightness_ret env s sc cur hc
        have hpc : ¬ sc.values_as_percentages ≠ 0 := by rw [hsc]; exact hp2
        simp only [if_neg hpc]
        rcases hw : set_current_brightness env (to_unsigned sc.brightness) sc with ⟨o2, sw⟩
        cases o2 with
        | ret u => simp
        | exit n => simp
        | fault w => exact absurd hw (set_current_brightness_no_fault env _ sc sw w)
      | exit n => simp
      | fault w => exact absurd hc (get_current_brightness_no_fault env s sc w)
  · intro hp
    have hz : ∀ v, to_percentage 0 v = none := fun v => by simp [to_percentage]
    refine ⟨?_, ?_⟩
    · rw [read_maximum_brightness_eq, if_pos hp, hm, hz]
    · intro cur sc hc
      obtain ⟨hsc, _⟩ := get_current_brightness_ret env s sc cur hc
      have hpc : sc.values_as_percentages ≠ 0 := by rw [hsc]; exact hp
      have hmc : sc.maximum = 0 := by rw [hsc]; exact hm
      constructor
      · rw [read_backlight_brightness_eq, hc]
        simp only [if_pos hpc, hmc, hz]
      · rw [write_backlight_brightness_eq, hc]
        simp only [if_pos hpc, hmc, hz]

/-- C9 (witness): maximum 0 in percentage mode, default directory. -/
theorem C9_zero_maximum_witness :
    state_zero_pct.maximum = 0 ∧ state_zero_pct.values_as_percentages ≠ 0 ∧
    read_maximum_brightness state_zero_pct = (Outcome.fault Fault.div_by_zero, state_zero_pct) ∧
    (∀ cur sc, get_current_brightness env_zero state_zero_pct = (Outcome.ret cur, sc) →
      (read_backlight_brightness env_zero state_zero_pct).1 =
        Outcome.fault Fault.div_by_zero ∧
      write_backlight_brightness env_zero state_zero_pct =
        (Outcome.fault Fault.div_by_zero, sc)) :=
  ⟨by decide, by decide, (C9_zero_maximum env_zero state_zero_pct (by decide)).2.2 (by decide)⟩

/-! ## No action selected -/

/-- C1 (the code at the failing input): an empty argument list ends with
status 1 and the "No options specified" message, but an argument list that
selects no action and passes `parse_args`, the directory check and the read
of the maximum ends with the "Error parsing options" message and status 0. -/
theorem C1_no_action_exit_status (env : Env) (argv0 : String) (args : List String)
    (s1 s2 s3 : State) (m : Nat)
    (h1 : parse_args args (State.start argv0) = (Outcome.ret (), s1))
    (h2 : validate_control_directory env s1 = (Outcome.ret (), s2))
    (h3 : get_max_brightness env s2 = (Outcome.ret m, s3))
    (hnone : actions_selected s1 = 0) :
    run env argv0 [] =
      (Outcome.exit 1, (parse_args_init (State.start argv0)).with_stderr MSG_NO_OPTIONS) ∧
    run env argv0 args = (Outcome.exit 0, (s3.with_maximum m).with_stderr MSG_PARSE) := by
  constructor
  · unfold run main
    have h := parse_args_eq [] (State.start argv0)
    rw [if_pos rfl] at h
    simp only [prog_bind, Prog.bind, modify_state_apply]
    have h' : parse_args [] { State.init with argv0 := argv0 } =
        (Outcome.exit 1, (parse_args_init (State.start argv0)).with_stderr MSG_NO_OPTIONS) := h
    rw [h']
  · obtain ⟨es, hs2, _⟩ := validate_control_directory_ret env s1 s2 h2
    obtain ⟨hs3, _⟩ := get_max_brightness_ret env s2 s3 m h3
    unfold actions_selected at hnone
    have hg : ¬ s3.get_backlight ≠ 0 := by
      rw [hs3, hs2]; show ¬ s1.get_backlight ≠ 0
      intro h; rw [if_pos h] at hnone; omega
    have hs : ¬ s3.set_backlight ≠ 0 := by
      rw [hs3, hs2]; show ¬ s1.set_backlight ≠ 0
      intro h; rw [if_pos h] at hnone; omega
    have hx : ¬ s3.max_brightness ≠ 0 := by
      rw [hs3, hs2]; show ¬ s1.max_brightness ≠ 0
      intro h; rw [if_pos h] at hnone; omega
    unfold run
    rw [main_after_setup env argv0 args State.init s1 s2 s3 m h1 h2 h3,
      if_neg (fun h => hs h.1), if_neg hg, if_neg hs, if_neg hx]

/-- C1 (witness): `-p` alone with a healthy control directory exits with
status 0. -/
theorem C1_no_action_exit_status_witness :
    parse_args ["-p"] (State.start "brightlight") = (Outcome.ret (), state_p_parsed) ∧
    validate_control_directory env_example state_p_parsed =
      (Outcome.ret (), state_p_validated) ∧
    get_max_brightness env_example state_p_validated = (Outcome.ret 255, state_p_max_read) ∧
    actions_selected state_p_parsed = 0 ∧
    run env_example "brightlight" ["-p"] =
      (Outcome.exit 0, (state_p_max_read.with_maximum 255).with_stderr MSG_PARSE) :=
  ⟨by decide, by decide, by decide, by decide,
   (C1_no_action_exit_status env_example "brightlight" ["-p"] state_p_parsed state_p_validated
     state_p_max_read 255 (by decide) (by decide) (by decide) (by decide)).2⟩

/-! ## A control directory that does not open -/

/-- C10 (the code at the failing input): when `opendir` fails with `ENOTDIR` or
`EACCES`, `validate_control_directory` prints its diagnostic and goes on: it
calls `access` for the attribute files and returns normally when both calls
succeed.  Only the remaining failures of `opendir` end the process at once,
with status 1. -/
theorem C10_failed_opendir_goes_on (env : Env) (s : State)
    (hfail : env.opendir s.backlight_path = DirOpen.enotdir ∨
      env.opendir s.backlight_path = DirOpen.eacces) :
    Event.access (s.checked_path "/brightness") ∈ (validate_control_directory env s).2.trace ∧
    (env.access (s.checked_path "/brightness") = true →
      env.access (s.checked_path "/max_brightness") = true →
      (validate_control_directory env s).1 = Outcome.ret ()) ∧
    (∀ env1 : Env, env1.opendir s.backlight_path = DirOpen.other →
      validate_control_directory env1 s =
        (Outcome.exit 1, s.log [Event.opendir s.backlight_path,
          Event.stderr "Could not access control directory.\n"])) := by
  have hne : env.opendir s.backlight_path ≠ DirOpen.other := by
    rcases hfail with h | h <;> rw [h] <;> decide
  refine ⟨?_, ?_, ?_⟩
  · rw [validate_control_directory_eq, if_neg hne]
    split_ifs <;> simp [State.log]
  · intro ha hb
    rw [validate_control_directory_eq, if_neg hne, if_neg (by simp [ha]), if_neg (by simp [hb])]
  · intro env1 h1
    rw [validate_control_directory_eq, if_pos h1]
    rfl

/-- C10 (witness): a directory without read permission that holds both files:
`-r` prints the permission diagnostic and then reads both files and exits
with status 0; a regular file in place of the directory gets the
not-a-directory diagnostic, passes both `access` calls and fails only when
`max_brightness` is opened. -/
theorem C10_failed_opendir_goes_on_witness :
    (env_no_read_permission.opendir state_r_parsed.backlight_path = DirOpen.enotdir ∨
      env_no_read_permission.opendir state_r_parsed.backlight_path = DirOpen.eacces) ∧
    (Event.access (state_r_parsed.checked_path "/brightness") ∈
      (validate_control_directory env_no_read_permission state_r_parsed).2.trace ∧
     (env_no_read_permission.access (state_r_parsed.checked_path "/brightness") = true →
      env_no_read_permission.access (state_r_parsed.checked_path "/max_brightness") = true →
      (validate_control_directory env_no_read_permission state_r_parsed).1 = Outcome.ret ()) ∧
     (∀ env1 : Env, env1.opendir state_r_parsed.backlight_path = DirOpen.other →
      validate_control_directory env1 state_r_parsed =
        (Outcome.exit 1, state_r_parsed.log [Event.opendir state_r_parsed.backlight_path,
          Event.stderr "Could not access control directory.\n"]))) ∧
    (run env_no_read_permission "brightlight" ["-r"]).1 = Outcome.exit 0 ∧
    (run env_no_read_permission "brightlight" ["-r"]).2.trace =
      [Event.opendir BACKLIGHT_PATH,
       Event.stderr ("Could not access " ++ BACKLIGHT_PATH ++ ": Permission denied.\n"),
       Event.closedir false,
       Event.access BACKLIGHT_PATH, Event.access BACKLIGHT_PATH,
       Event.fopen (BACKLIGHT_PATH ++ "/max_brightness") "r",
       Event.fscanf (BACKLIGHT_PATH ++ "/max_brightness"),
       Event.fclose (BACKLIGHT_PATH ++ "/max_brightness"),
       Event.fopen (BACKLIGHT_PATH ++ "/brightness") "r",
       Event.fscanf (BACKLIGHT_PATH ++ "/brightness"),
       Event.fclose (BACKLIGHT_PATH ++ "/brightness"),
       Event.stdout "Current backlight brightness is: 128.\n"] ∧
    run env_regular_file "brightlight" ["-r"] =
      (Outcome.exit 1, state_r_parsed.log
        [Event.opendir BACKLIGHT_PATH,
         Event.stderr (BACKLIGHT_PATH ++ " is not a directory.\n"),
         Event.closedir false,
         Event.access BACKLIGHT_PATH, Event.access BACKLIGHT_PATH,
         Event.fopen (BACKLIGHT_PATH ++ "/max_brightness") "r",
         Event.stderr "Error occured while trying to open max_brightness file.\n"]) :=
  ⟨by decide,
   C10_failed_opendir_goes_on env_no_read_permission state_r_parsed (by decide),
   by decide, by decide, by decide⟩

/-! ## Percentage round trip and the bound on written values -/

theorem from_percentage_le (maximum pct : Nat) (hpct : pct ≤ 100) :
    from_percentage maximum pct ≤ maximum := by
  unfold from_percentage
  by_cases hw : pct * maximum < UINT_MOD
  · rw [Nat.mod_eq_of_lt hw]
    apply Nat.div_le_of_le_mul
    have : pct * maximum ≤ 100 * maximum := Nat.mul_le_mul_right _ hpct
    omega
  · have h1 : pct * maximum ≤ 100 * maximum := Nat.mul_le_mul_right _ hpct
    have h2 : pct * maximum % UINT_MOD < UINT_MOD := Nat.mod_lt _ (by decide)
    unfold UINT_MOD at hw h2 ⊢
    omega

/-- C19: for every maximum with `100 <= maximum` and `100 * maximum < 2^32` and
every `pct` in `0..100`, converting `pct` with `from_percentage` and back with
`to_percentage` gives a value `q` with `pct - 1 <= q <= pct`, and `q = pct`
whenever the maximum is a multiple of 100. -/
theorem C19_percentage_round_trip (maximum pct : Nat) (hlow : 100 ≤ maximum)
    (hmax : 100 * maximum < UINT_MOD) (hpct : pct ≤ 100) :
    ∃ q, to_percentage maximum (from_percentage maximum pct) = some q ∧
      pct - 1 ≤ q ∧ q ≤ pct ∧ (100 ∣ maximum → q = pct) := by
  have hP : pct * maximum ≤ 100 * maximum := Nat.mul_le_mul_right _ hpct
  have hfrom : from_percentage maximum pct = pct * maximum / 100 :=
    from_percentage_no_wrap maximum pct (by omega)
  have hr1 : 100 * (pct * maximum / 100) + pct * maximum % 100 = pct * maximum :=
    Nat.div_add_mod _ _
  have hr2 : pct * maximum % 100 < 100 := Nat.mod_lt _ (by decide)
  have hcomm : pct * maximum / 100 * 100 = 100 * (pct * maximum / 100) := Nat.mul_comm _ _
  have hto : to_percentage maximum (pct * maximum / 100) =
      some (pct * maximum / 100 * 100 / maximum) :=
    to_percentage_no_wrap maximum _ (by omega) (by omega)
  refine ⟨pct * maximum / 100 * 100 / maximum, by rw [hfrom, hto], ?_, ?_, ?_⟩
  · have hpos : 0 < maximum := by omega
    have hq1 : maximum * (pct * maximum / 100 * 100 / maximum) +
        pct * maximum / 100 * 100 % maximum = pct * maximum / 100 * 100 := Nat.div_add_mod _ _
    have hq2 : pct * maximum / 100 * 100 % maximum < maximum := Nat.mod_lt _ hpos
    generalize hq : pct * maximum / 100 * 100 / maximum = q at hq1 ⊢
    by_contra hn
    have hge : q + 2 ≤ pct := by omega
    have hmul : (q + 2) * maximum ≤ pct * maximum := Nat.mul_le_mul_right _ hge
    rw [Nat.add_mul, Nat.mul_comm q maximum] at hmul
    generalize maximum * q = A at hq1 hmul
    generalize pct * maximum / 100 * 100 % maximum = B at hq1 hq2
    generalize pct * maximum = P at *
    omega
  · apply Nat.div_le_of_le_mul
    rw [Nat.mul_comm maximum pct]
    omega
  · rintro ⟨k, rfl⟩
    have h1 : pct * (100 * k) / 100 = pct * k := by
      rw [Nat.mul_left_comm, Nat.mul_div_cancel_left _ (by decide : 0 < 100)]
    rw [h1]
    have h2 : pct * k * 100 = pct * (100 * k) := by ring
    rw [h2, Nat.mul_div_cancel _ (by omega : 0 < 100 * k)]

/-- C19 (witness): maximum 255, 25 percent comes back as 24. -/
theorem C19_percentage_round_trip_witness :
    100 ≤ 255 ∧ 100 * 255 < UINT_MOD ∧ 25 ≤ 100 ∧
    ∃ q, to_percentage 255 (from_percentage 255 25) = some q ∧
      25 - 1 ≤ q ∧ q ≤ 25 ∧ (100 ∣ 255 → q = 25) :=
  ⟨by decide, by decide, by decide,
   C19_percentage_round_trip 255 25 (by decide) (by decide) (by decide)⟩

/-! ## What `parse_args` leaves behind in every outcome -/

/-- Any predicate on the locals and the state that each loop body keeps is
kept by the whole loop. -/
theorem parse_loop_preserves (P : ParseLocals → State → Prop)
    (hstep : ∀ (tok : String) (next : Option String) (l l1 : ParseLocals) (s s1 : State)
      (b : Bool), P l s → parse_option tok next l s = (Outcome.ret (l1, b), s1) → P l1 s1) :
    ∀ (n : Nat) (toks : List String), toks.length ≤ n →
    ∀ (l : ParseLocals) (s : State) (l1 : ParseLocals) (left : List String) (s1 : State),
      P l s → parse_loop toks l s = (Outcome.ret (l1, left), s1) → P l1 s1 := by
  intro n
  induction n with
  | zero =>
    intro toks hlen l s l1 left s1 hP h
    have : toks = [] := List.length_eq_zero.1 (by omega)
    subst this
    rw [parse_loop_nil] at h
    simp only [Prod.mk.injEq, Outcome.ret.injEq] at h
    obtain ⟨⟨rfl, _⟩, rfl⟩ := h
    exact hP
  | succ n ih =>
    intro toks hlen l s l1 left s1 hP h
    cases toks with
    | nil =>
      rw [parse_loop_nil] at h
      simp only [Prod.mk.injEq, Outcome.ret.injEq] at h
      obtain ⟨⟨rfl, _⟩, rfl⟩ := h
      exact hP
    | cons tok rest =>
      have hrest : rest.length ≤ n := by simp at hlen; omega
      by_cases hdash : tok.data.head? = some '-'
      · rw [parse_loop_cons tok rest l s hdash] at h
        rcases hpo : parse_option tok rest.head? l s with ⟨o, s2⟩
        rw [hpo] at h
        cases o with
        | ret a =>
          obtain ⟨l2, stepped⟩ := a
          have hP2 := hstep tok _ l l2 s s2 stepped hP hpo
          cases stepped with
          | true =>
            simp only [if_true] at h
            exact ih rest.tail (by simp; omega) l2 s2 l1 left s1 hP2 h
          | false =>
            simp only [Bool.false_eq_true, if_false] at h
            exact ih rest hrest l2 s2 l1 left s1 hP2 h
        | exit k => simp at h
        | fault w => simp at h
      · rw [parse_loop_nodash tok rest l s hdash] at h
        simp only [Prod.mk.injEq, Outcome.ret.injEq] at h
        obtain ⟨⟨rfl, _⟩, rfl⟩ := h
        exact hP

theorem parse_loop_argv0 (toks : List String) (l l1 : ParseLocals) (s s1 : State)
    (left : List String) (h : parse_loop toks l s = (Outcome.ret (l1, left), s1)) :
    s1.argv0 = s.argv0 := by
  refine parse_loop_preserves (fun _ t => t.argv0 = s.argv0) ?_ toks.length toks (le_refl _)
    l s l1 left s1 rfl h
  intro tok next l l1 t t1 b hP hpo
  rw [parse_option_eq] at hpo
  split_ifs at hpo <;>
    simp only [Prod.mk.injEq, Outcome.ret.injEq, reduceCtorEq, false_and, and_false] at hpo
  all_goals obtain ⟨_, rfl⟩ := hpo
  all_goals exact hP

/-- Once `-w <val>` has been taken, a loop that runs to its end keeps the value
and the flag. -/
theorem parse_loop_keeps_value (v : String) (toks : List String) (l l1 : ParseLocals)
    (s s1 : State) (left : List String)
    (hl : l.conflicting_args ≠ 0 ∧ l.cmdline_brightness = some v ∧ s.set_backlight ≠ 0)
    (h : parse_loop toks l s = (Outcome.ret (l1, left), s1)) :
    l1.conflicting_args ≠ 0 ∧ l1.cmdline_brightness = some v ∧ s1.set_backlight ≠ 0 := by
  refine parse_loop_preserves
    (fun k t => k.conflicting_args ≠ 0 ∧ k.cmdline_brightness = some v ∧ t.set_backlight ≠ 0)
    ?_ toks.length toks (le_refl _) l s l1 left s1 hl h
  intro tok next l l1 t t1 b hP hpo
  obtain ⟨hc, hv, hs⟩ := hP
  rw [parse_option_eq] at hpo
  split_ifs at hpo <;>
    simp only [Prod.mk.injEq, Outcome.ret.injEq, reduceCtorEq, false_and, and_false] at hpo
  all_goals obtain ⟨⟨rfl, _⟩, rfl⟩ := hpo
  all_goals exact ⟨hc, hv, hs⟩

theorem version_trace (s : State) :
    (version s).2.trace = s.trace ++
      [Event.stdout (PROGRAM_NAME ++ " v" ++ format_d PROGRAM_VERSION ++ "\n"),
       Event.stdout "Copyright (C) 2016 David Miller <multiplexd@gmx.com\n",
       Event.stdout VERSION_TEXT] := by
  simp [version, prog_bind, Prog.bind, emit_apply]

theorem usage_trace (s : State) :
    (usage s).2.trace = s.trace ++
      [Event.stdout ("Usage: " ++ s.argv0 ++ " [OPTIONS]\n"),
       Event.stdout USAGE_OPTIONS, Event.stdout USAGE_TAIL] := by
  simp [usage, prog_bind, Prog.bind, emit_apply, get_state_apply]

/-- In every outcome the loop body adds only messages to the trace. -/
theorem parse_option_quiet (tok : String) (next : Option String) (l : ParseLocals)
    (s : State) :
    ∃ es, (parse_option tok next l s).2.trace = s.trace ++ es ∧
      ∀ e ∈ es, is_file_operation e = false := by
  rw [parse_option_eq]
  split_ifs
  · exact ⟨_, version_trace s, by simp [is_file_operation]⟩
  · exact ⟨_, usage_trace s, by simp [is_file_operation]⟩
  all_goals first
    | exact ⟨[Event.stderr MSG_CONFLICT], rfl, by simp [is_file_operation]⟩
    | exact ⟨[Event.stderr MSG_PARSE], rfl, by simp [is_file_operation]⟩
    | exact ⟨[], (List.append_nil _).symm, by simp⟩

theorem parse_loop_quiet : ∀ (n : Nat) (toks : List String), toks.length ≤ n →
    ∀ (l : ParseLocals) (s : State),
      ∃ es, (parse_loop toks l s).2.trace = s.trace ++ es ∧
        ∀ e ∈ es, is_file_operation e = false := by
  intro n
  induction n with
  | zero =>
    intro toks hlen l s
    have : toks = [] := List.length_eq_zero.1 (by omega)
    subst this
    exact ⟨[], by simp [parse_loop_nil], by simp⟩
  | succ n ih =>
    intro toks hlen l s
    cases toks with
    | nil => exact ⟨[], by simp [parse_loop_nil], by simp⟩
    | cons tok rest =>
      have hrest : rest.length ≤ n := by simp at hlen; omega
      by_cases hdash : tok.data.head? = some '-'
      · rw [parse_loop_cons tok rest l s hdash]
        obtain ⟨es1, htr1, hq1⟩ := parse_option_quiet tok rest.head? l s
        rcases hpo : parse_option tok rest.head? l s with ⟨o, s2⟩
        rw [hpo] at htr1
        cases o with
        | ret a =>
          obtain ⟨l2, stepped⟩ := a
          cases stepped with
          | true =>
            obtain ⟨es2, htr2, hq2⟩ := ih rest.tail (by simp; omega) l2 s2
            refine ⟨es1 ++ es2, ?_, ?_⟩
            · simp only [if_true]
              rw [htr2, htr1, List.append_assoc]
            · intro e he
              rcases List.mem_append.1 he with h | h
              · exact hq1 e h
              · exact hq2 e h
          | false =>
            obtain ⟨es2, htr2, hq2⟩ := ih rest hrest l2 s2
            refine ⟨es1 ++ es2, ?_, ?_⟩
            · simp only [Bool.false_eq_true, if_false]
              rw [htr2, htr1, List.append_assoc]
            · intro e he
              rcases List.mem_append.1 he with h | h
              · exact hq1 e h
              · exact hq2 e h
        | exit k => exact ⟨es1, htr1, hq1⟩
        | fault w => exact ⟨es1, htr1, hq1⟩
      · rw [parse_loop_nodash tok rest l s hdash]
        exact ⟨[], by simp, by simp⟩

/-- In every outcome `parse_args` adds only messages to the trace. -/
theorem parse_args_quiet (args : List String) (st : State) :
    ∃ es, (parse_args args st).2.trace = st.trace ++ es ∧
      ∀ e ∈ es, is_file_operation e = false := by
  rw [parse_args_eq]
  split_ifs with hargs
  · exact ⟨[Event.stderr MSG_NO_OPTIONS], rfl, by simp [is_file_operation]⟩
  · obtain ⟨es1, htr1, hq1⟩ := parse_loop_quiet args.length args (le_refl _)
      ParseLocals.init (parse_args_init st)
    rcases hloop : parse_loop args ParseLocals.init (parse_args_init st) with ⟨o, s1⟩
    rw [hloop] at htr1
    have htr1' : s1.trace = st.trace ++ es1 := htr1
    cases o with
    | ret a =>
      obtain ⟨l, left⟩ := a
      simp only
      split_ifs with hleft hset
      · refine ⟨es1 ++ [Event.stderr MSG_PARSE], ?_, ?_⟩
        · show s1.trace ++ _ = _
          rw [htr1', List.append_assoc]
        · intro e he
          rcases List.mem_append.1 he with h | h
          · exact hq1 e h
          · simp only [List.mem_singleton] at h; subst h; rfl
      · cases hcb : l.cmdline_brightness with
        | none => exact ⟨es1, htr1', hq1⟩
        | some arg =>
          simp only
          rw [parse_cmdline_int_eq]
          split_ifs
          · refine ⟨es1 ++ [Event.stderr MSG_INVALID], ?_, ?_⟩
            · show s1.trace ++ _ = _
              rw [htr1', List.append_assoc]
            · intro e he
              rcases List.mem_append.1 he with h | h
              · exact hq1 e h
              · simp only [List.mem_singleton] at h; subst h; rfl
          · exact ⟨es1, htr1', hq1⟩
      · exact ⟨es1, htr1', hq1⟩
    | exit k => exact ⟨es1, htr1', hq1⟩
    | fault w => exact ⟨es1, htr1', hq1⟩

/-- When `parse_args` does not return, `main` ends as `parse_args` did. -/
theorem run_parse_stops (env : Env) (argv0 : String) (args : List String)
    (h : ∀ s1, parse_args args (State.start argv0) ≠ (Outcome.ret (), s1)) :
    run env argv0 args = parse_args args (State.start argv0) := by
  unfold run main
  simp only [prog_bind, Prog.bind, modify_state_apply]
  have hst : ({ State.init with argv0 := argv0 } : State) = State.start argv0 := rfl
  rw [hst]
  rcases hp : parse_args args (State.start argv0) with ⟨o, s1⟩
  cases o with
  | ret u => exact absurd hp (h s1)
  | exit k => rfl
  | fault w => rfl

/-! ## `-v` and `-h` -/

/-- C17: when `parse_args` reaches `-v` or `-h` in option position, all tokens
before it accepted, the run prints the version or usage text to stdout and
exits with status 0, whatever follows the token: the trace holds those three
stdout events and nothing else, so no later token is examined, no `-w` value
is validated, and no directory or attribute file is touched. -/
theorem C17_version_help_exit (env : Env) (argv0 : String) (pre post : List String)
    (l1 : ParseLocals) (s1 : State)
    (hpre : parse_loop pre ParseLocals.init (parse_args_init (State.start argv0)) =
      (Outcome.ret (l1, []), s1)) :
    (run env argv0 (pre ++ "-v" :: post)).1 = Outcome.exit 0 ∧
    (run env argv0 (pre ++ "-v" :: post)).2.trace =
      [Event.stdout (PROGRAM_NAME ++ " v" ++ format_d PROGRAM_VERSION ++ "\n"),
       Event.stdout "Copyright (C) 2016 David Miller <multiplexd@gmx.com\n",
       Event.stdout VERSION_TEXT] ∧
    (run env argv0 (pre ++ "-h" :: post)).1 = Outcome.exit 0 ∧
    (run env argv0 (pre ++ "-h" :: post)).2.trace =
      [Event.stdout ("Usage: " ++ argv0 ++ " [OPTIONS]\n"),
       Event.stdout USAGE_OPTIONS, Event.stdout USAGE_TAIL] := by
  obtain ⟨_, htr⟩ := parse_loop_inv pre.length pre (le_refl _) _ _ l1 [] s1
    (parse_inv_init _) hpre
  have htr0 : s1.trace = [] := htr
  have hargv : s1.argv0 = argv0 := parse_loop_argv0 pre _ l1 _ s1 [] hpre
  have hv : parse_args (pre ++ "-v" :: post) (State.start argv0) =
      (Outcome.exit 0, (version s1).2) := by
    rw [parse_args_eq, if_neg (by simp),
      parse_loop_append pre.length pre (le_refl _) _ _ _ _ _ hpre,
      parse_loop_cons _ _ _ _ (by decide), parse_option_eq, if_pos rfl]
  have hh : parse_args (pre ++ "-h" :: post) (State.start argv0) =
      (Outcome.exit 0, (usage s1).2) := by
    rw [parse_args_eq, if_neg (by simp),
      parse_loop_append pre.length pre (le_refl _) _ _ _ _ _ hpre,
      parse_loop_cons _ _ _ _ (by decide), parse_option_eq, if_neg (by decide), if_pos rfl]
  rw [run_parse_stops env argv0 _ (by rw [hv]; intro s; simp),
    run_parse_stops env argv0 _ (by rw [hh]; intro s; simp), hv, hh]
  refine ⟨rfl, ?_, rfl, ?_⟩
  · show (version s1).2.trace = _
    rw [version_trace, htr0, List.nil_append]
  · show (usage s1).2.trace = _
    rw [usage_trace, htr0, hargv, List.nil_append]

/-- C17 (witness): `-w abc -v x`: the malformed value and the trailing token
do not matter, the run prints the version and exits with status 0. -/
theorem C17_version_help_exit_witness :
    parse_loop ["-w", "abc"] ParseLocals.init (parse_args_init (State.start "brightlight")) =
      (Outcome.ret ({ conflicting_args := 1, cmdline_brightness := some "abc" }, []),
        { parse_args_init (State.start "brightlight") with set_backlight := 1 }) ∧
    (run env_example "brightlight" (["-w", "abc"] ++ "-v" :: ["x"])).1 = Outcome.exit 0 ∧
    (run env_example "brightlight" (["-w", "abc"] ++ "-v" :: ["x"])).2.trace =
      [Event.stdout (PROGRAM_NAME ++ " v" ++ format_d PROGRAM_VERSION ++ "\n"),
       Event.stdout "Copyright (C) 2016 David Miller <multiplexd@gmx.com\n",
       Event.stdout VERSION_TEXT] ∧
    (run env_example "brightlight" (["-w", "abc"] ++ "-h" :: ["x"])).1 = Outcome.exit 0 ∧
    (run env_example "brightlight" (["-w", "abc"] ++ "-h" :: ["x"])).2.trace =
      [Event.stdout ("Usage: " ++ "brightlight" ++ " [OPTIONS]\n"),
       Event.stdout USAGE_OPTIONS, Event.stdout USAGE_TAIL] :=
  ⟨by decide,
   C17_version_help_exit env_example "brightlight" ["-w", "abc"] ["x"]
     { conflicting_args := 1, cmdline_brightness := some "abc" }
     { parse_args_init (State.start "brightlight") with set_backlight := 1 } (by decide)⟩

/-! ## Parse errors -/

theorem parse_option_ret_cases (tok : String) (next : Option String) (l l1 : ParseLocals)
    (s s1 : State) (b : Bool) (h : parse_option tok next l s = (Outcome.ret (l1, b), s1)) :
    (b = true ∧ (tok = "-w" ∨ tok = "-f") ∧ next ≠ none) ∨
    (b = false ∧ (tok = "-r" ∨ tok = "-p" ∨ tok = "-m")) := by
  rw [parse_option_eq] at h
  split_ifs at h <;>
    simp only [Prod.mk.injEq, Outcome.ret.injEq, reduceCtorEq, false_and, and_false] at h
  all_goals obtain ⟨⟨_, rfl⟩, _⟩ := h
  all_goals simp_all

theorem parse_loop_well_formed : ∀ (n : Nat) (toks : List String), toks.length ≤ n →
    ∀ (l : ParseLocals) (s : State) (l1 : ParseLocals) (s1 : State),
      parse_loop toks l s = (Outcome.ret (l1, []), s1) → OptionsWellFormed toks := by
  intro n
  induction n with
  | zero =>
    intro toks hlen l s l1 s1 _
    have : toks = [] := List.length_eq_zero.1 (by omega)
    subst this
    exact OptionsWellFormed.nil
  | succ n ih =>
    intro toks hlen l s l1 s1 h
    cases toks with
    | nil => exact OptionsWellFormed.nil
    | cons tok rest =>
      have hrest : rest.length ≤ n := by simp at hlen; omega
      by_cases hdash : tok.data.head? = some '-'
      · rw [parse_loop_cons tok rest l s hdash] at h
        rcases hpo : parse_option tok rest.head? l s with ⟨o, s2⟩
        rw [hpo] at h
        cases o with
        | ret a =>
          obtain ⟨l2, stepped⟩ := a
          have hcases := parse_option_ret_cases tok _ l l2 s s2 stepped hpo
          cases stepped with
          | true =>
            simp only [if_true] at h
            have htok : (tok = "-w" ∨ tok = "-f") ∧ rest.head? ≠ none := by
              rcases hcases with ⟨_, h1, h2⟩ | ⟨h1, _⟩
              · exact ⟨h1, h2⟩
              · exact absurd h1 (by decide)
            cases rest with
            | nil => exact absurd rfl htok.2
            | cons v rest1 =>
              exact OptionsWellFormed.arg tok v rest1 htok.1
                (ih rest1 (by simp at hrest; omega) l2 s2 l1 s1 h)
          | false =>
            simp only [Bool.false_eq_true, if_false] at h
            have htok : tok = "-r" ∨ tok = "-p" ∨ tok = "-m" := by
              rcases hcases with ⟨h1, _⟩ | ⟨_, h1⟩
              · exact absurd h1 (by decide)
              · exact h1
            exact OptionsWellFormed.flag tok rest htok (ih rest hrest l2 s2 l1 s1 h)
        | exit k => simp at h
        | fault w => simp at h
      · rw [parse_loop_nodash tok rest l s hdash] at h
        simp at h

/-- C16 (counterexample): in `-r -m -x` the unrecognized `-x` is never reached:
the process exits with status 1, but with the conflicting-options message. -/
theorem C16_counterexample :
    parse_args ["-r", "-m", "-x"] State.init =
      (Outcome.exit 1,
        ({ parse_args_init State.init with get_backlight := 1 } : State).with_stderr
          MSG_CONFLICT) ∧
    MSG_CONFLICT ≠ MSG_PARSE := by
  decide

/-- C16 (amended): `parse_args` returns normally only for argument lists made
entirely of recognized options with their arguments; and when the loop reaches
(all tokens before it accepted) a token that does not start with `-`, an
unrecognized option, or a `-w` or `-f` that is the last token, the process
exits with status 1 after the "Error parsing options" message, which is the
only event since the call. -/
theorem C16_parse_errors (args : List String) (st : State) :
    (∀ st1, parse_args args st = (Outcome.ret (), st1) → OptionsWellFormed args) ∧
    (∀ (pre : List String) (tok : String) (post : List String) (l1 : ParseLocals) (s1 : State),
      args = pre ++ tok :: post →
      parse_loop pre ParseLocals.init (parse_args_init st) = (Outcome.ret (l1, []), s1) →
      is_parse_error tok post →
      parse_args args st = (Outcome.exit 1, s1.with_stderr MSG_PARSE) ∧
      (s1.with_stderr MSG_PARSE).trace = st.trace ++ [Event.stderr MSG_PARSE]) := by
  constructor
  · intro st1 h
    rw [parse_args_eq] at h
    split_ifs at h with hargs
    · simp at h
    · rcases hloop : parse_loop args ParseLocals.init (parse_args_init st) with ⟨o, s0⟩
      rw [hloop] at h
      cases o with
      | ret a =>
        obtain ⟨l, left⟩ := a
        simp only at h
        split_ifs at h with hleft
        · simp at h
        · have hl : left = [] := by simpa using hleft
          subst hl
          exact parse_loop_well_formed args.length args (le_refl _) _ _ l s0 hloop
        · have hl : left = [] := by simpa using hleft
          subst hl
          exact parse_loop_well_formed args.length args (le_refl _) _ _ l s0 hloop
      | exit k => simp at h
      | fault w => simp at h
  · intro pre tok post l1 s1 hargs hpre herr
    obtain ⟨_, htr⟩ := parse_loop_inv pre.length pre (le_refl _) _ _ l1 [] s1
      (parse_inv_init st) hpre
    have htr0 : s1.trace = st.trace := htr
    refine ⟨?_, by show s1.trace ++ _ = _; rw [htr0]⟩
    rw [parse_args_eq, if_neg (by simp [hargs]), hargs,
      parse_loop_append pre.length pre (le_refl _) _ _ _ _ _ hpre]
    by_cases hdash : tok.data.head? = some '-'
    · rw [parse_loop_cons _ _ _ _ hdash, parse_option_eq]
      rcases herr with h | h | h
      · exact absurd hdash h
      · obtain ⟨hv, hh, hr, hw, hf, hp, hm⟩ := h
        simp [hv, hh, hr, hw, hf, hp, hm]
      · obtain ⟨hwf, hpost⟩ := h
        subst hpost
        rcases hwf with rfl | rfl <;> simp
    · rw [parse_loop_nodash _ _ _ _ hdash]
      simp

/-- C16 (witness): `-p` alone is accepted and well formed; `-p -w` (the value
missing) exits with status 1 and the "Error parsing options" message. -/
theorem C16_parse_errors_witness :
    (parse_args ["-p"] State.init =
      (Outcome.ret (), { parse_args_init State.init with values_as_percentages := 1 }) ∧
     OptionsWellFormed ["-p"]) ∧
    (parse_loop ["-p"] ParseLocals.init (parse_args_init State.init) =
      (Outcome.ret (ParseLocals.init, []),
        { parse_args_init State.init with values_as_percentages := 1 }) ∧
     is_parse_error "-w" [] ∧
     parse_args ["-p", "-w"] State.init =
       (Outcome.exit 1,
         ({ parse_args_init State.init with values_as_percentages := 1 } : State).with_stderr
           MSG_PARSE) ∧
     (({ parse_args_init State.init with values_as_percentages := 1 } : State).with_stderr
        MSG_PARSE).trace = State.init.trace ++ [Event.stderr MSG_PARSE]) :=
  ⟨⟨by decide, (C16_parse_errors ["-p"] State.init).1
      { parse_args_init State.init with values_as_percentages := 1 } (by decide)⟩,
   by decide, Or.inr (Or.inr ⟨Or.inl rfl, rfl⟩),
   (C16_parse_errors ["-p", "-w"] State.init).2 ["-p"] "-w" [] ParseLocals.init
     { parse_args_init State.init with values_as_percentages := 1 } (by decide) (by decide)
     (Or.inr (Or.inr ⟨Or.inl rfl, rfl⟩))⟩

/-! ## A malformed `-w` value -/

theorem parse_option_no_fault (tok : String) (next : Option String) (l : ParseLocals)
    (s s1 : State) (w : Fault) : parse_option tok next l s ≠ (Outcome.fault w, s1) := by
  rw [parse_option_eq]
  split_ifs <;> simp

theorem parse_loop_no_fault : ∀ (n : Nat) (toks : List String), toks.length ≤ n →
    ∀ (l : ParseLocals) (s s1 : State) (w : Fault),
      parse_loop toks l s ≠ (Outcome.fault w, s1) := by
  intro n
  induction n with
  | zero =>
    intro toks hlen l s s1 w
    have : toks = [] := List.length_eq_zero.1 (by omega)
    subst this
    rw [parse_loop_nil]; simp
  | succ n ih =>
    intro toks hlen l s s1 w
    cases toks with
    | nil => rw [parse_loop_nil]; simp
    | cons tok rest =>
      have hrest : rest.length ≤ n := by simp at hlen; omega
      by_cases hdash : tok.data.head? = some '-'
      · rw [parse_loop_cons tok rest l s hdash]
        rcases hpo : parse_option tok rest.head? l s with ⟨o, s2⟩
        cases o with
        | ret a =>
          obtain ⟨l2, stepped⟩ := a
          cases stepped with
          | true =>
            simp only [if_true]
            exact ih rest.tail (by simp; omega) l2 s2 s1 w
          | false =>
            simp only [Bool.false_eq_true, if_false]
            exact ih rest hrest l2 s2 s1 w
        | exit k => simp
        | fault w2 => exact absurd hpo (parse_option_no_fault tok _ l s s2 w2)
      · rw [parse_loop_nodash tok rest l s hdash]; simp

/-- C13: for every argument list in which `-w <val>` is taken in option
position with a malformed value, the run ends inside `parse_args` with an exit
and its trace holds no file-system event; when the loop runs to its end, the
end is status 1 after the "Invalid argument" message. -/
theorem C13_malformed_value_no_file_io (env : Env) (argv0 : String) (pre post : List String)
    (v : String) (l1 : ParseLocals) (s1 : State)
    (hpre : parse_loop pre ParseLocals.init (parse_args_init (State.start argv0)) =
      (Outcome.ret (l1, []), s1))
    (hbad : malformed_value v) :
    (∀ e ∈ (run env argv0 (pre ++ "-w" :: v :: post)).2.trace, is_file_operation e = false) ∧
    (∃ n, (run env argv0 (pre ++ "-w" :: v :: post)).1 = Outcome.exit n) ∧
    (∀ (l : ParseLocals) (s0 : State),
      parse_loop (pre ++ "-w" :: v :: post) ParseLocals.init
        (parse_args_init (State.start argv0)) = (Outcome.ret (l, []), s0) →
      run env argv0 (pre ++ "-w" :: v :: post) = (Outcome.exit 1, s0.with_stderr MSG_INVALID)) := by
  have happ := parse_loop_append pre.length pre (le_refl _) ("-w" :: v :: post) _ _ _ _ hpre
  have hcons := parse_loop_cons "-w" (v :: post) l1 s1 (by decide)
  rw [parse_option_eq] at hcons
  simp only [if_neg (show ¬ ("-w" = "-v") by decide), if_neg (show ¬ ("-w" = "-h") by decide),
    if_neg (show ¬ ("-w" = "-r") by decide), List.head?_cons, ne_eq, reduceCtorEq,
    not_false_eq_true, and_self, if_true, List.tail_cons] at hcons
  -- the value survives to the end of the loop
  have hkeep : ∀ (l : ParseLocals) (left : List String) (s0 : State),
      parse_loop (pre ++ "-w" :: v :: post) ParseLocals.init
        (parse_args_init (State.start argv0)) = (Outcome.ret (l, left), s0) →
      l.cmdline_brightness = some v ∧ s0.set_backlight ≠ 0 := by
    intro l left s0 h
    rw [happ, hcons] at h
    by_cases hc : l1.conflicting_args ≠ 0
    · rw [if_pos hc] at h; simp at h
    · rw [if_neg hc] at h
      simp only [if_true] at h
      have := parse_loop_keeps_value v post _ l _ s0 left ⟨by simp, rfl, by simp⟩ h
      exact ⟨this.2.1, this.2.2⟩
  have hpa := parse_args_eq (pre ++ "-w" :: v :: post) (State.start argv0)
  rw [if_neg (by simp)] at hpa
  have hquiet := parse_args_quiet (pre ++ "-w" :: v :: post) (State.start argv0)
  have hnoret : ∀ s, parse_args (pre ++ "-w" :: v :: post) (State.start argv0) ≠
      (Outcome.ret (), s) := by
    intro s h
    rw [hpa] at h
    rcases hloop : parse_loop (pre ++ "-w" :: v :: post) ParseLocals.init
      (parse_args_init (State.start argv0)) with ⟨o, s0⟩
    rw [hloop] at h
    cases o with
    | ret a =>
      obtain ⟨l, left⟩ := a
      obtain ⟨hv, hs⟩ := hkeep l left s0 hloop
      simp only [hv, if_pos hs, parse_cmdline_int_eq] at h
      unfold malformed_value at hbad
      simp only [if_pos hbad] at h
      split_ifs at h <;> simp at h
    | exit k => simp at h
    | fault w => simp at h
  have hrun := run_parse_stops env argv0 _ hnoret
  refine ⟨?_, ?_, ?_⟩
  · rw [hrun]
    obtain ⟨es, htr, hq⟩ := hquiet
    intro e he
    rw [htr] at he
    simp only [State.start, State.init, List.nil_append] at he
    exact hq e he
  · rw [hrun, hpa]
    rcases hloop : parse_loop (pre ++ "-w" :: v :: post) ParseLocals.init
      (parse_args_init (State.start argv0)) with ⟨o, s0⟩
    cases o with
    | ret a =>
      obtain ⟨l, left⟩ := a
      obtain ⟨hv, hs⟩ := hkeep l left s0 hloop
      unfold malformed_value at hbad
      simp only [hv, if_pos hs, parse_cmdline_int_eq, if_pos hbad]
      split_ifs <;> exact ⟨1, rfl⟩
    | exit k => exact ⟨k, rfl⟩
    | fault w =>
      exact absurd hloop (parse_loop_no_fault _ _ (le_refl _) _ _ s0 w)
  · intro l s0 hloop
    obtain ⟨hv, hs⟩ := hkeep l [] s0 hloop
    unfold malformed_value at hbad
    rw [hrun, hpa, hloop]
    simp only [hv, if_pos hs, parse_cmdline_int_eq, if_pos hbad]
    simp

/-- C13 (witness): `-w 999999` ends with status 1 and the "Invalid argument"
message as the only event. -/
theorem C13_malformed_value_no_file_io_witness :
    parse_loop [] ParseLocals.init (parse_args_init (State.start "brightlight")) =
      (Outcome.ret (ParseLocals.init, []), parse_args_init (State.start "brightlight")) ∧
    malformed_value "999999" ∧
    ((∀ e ∈ (run env_example "brightlight" ([] ++ "-w" :: "999999" :: [])).2.trace,
        is_file_operation e = false) ∧
     (∃ n, (run env_example "brightlight" ([] ++ "-w" :: "999999" :: [])).1 = Outcome.exit n) ∧
     (∀ (l : ParseLocals) (s0 : State),
        parse_loop ([] ++ "-w" :: "999999" :: []) ParseLocals.init
          (parse_args_init (State.start "brightlight")) = (Outcome.ret (l, []), s0) →
        run env_example "brightlight" ([] ++ "-w" :: "999999" :: []) =
          (Outcome.exit 1, s0.with_stderr MSG_INVALID))) ∧
    run env_example "brightlight" ["-w", "999999"] =
      (Outcome.exit 1,
        ({ parse_args_init (State.start "brightlight") with set_backlight := 1 } :
          State).with_stderr MSG_INVALID) :=
  ⟨rfl, Or.inr (by decide),
   C13_malformed_value_no_file_io env_example "brightlight" [] [] "999999" ParseLocals.init
     (parse_args_init (State.start "brightlight")) rfl (Or.inr (by decide)),
   by decide⟩

/-! ## The paths that the directory check tests -/

theorem strlcpy_short (p : String) (h : p.data.length < MAX_PATH_LEN) :
    strlcpy p MAX_PATH_LEN = p := by
  unfold strlcpy
  unfold MAX_PATH_LEN at h ⊢
  have : List.take (200 - 1) p.data = p.data := List.take_of_length_le (by omega)
  rw [this]

/-- C11 (the code at the failing input): for every control directory path of 20
to 199 characters that opens, the two paths handed to `access` are both the
directory path itself, because `strlcat` is given the size `EXTRA_PATH_LEN`; so
`validate_control_directory` returns normally exactly when the directory
exists, whatever it holds, while the accessors open `p + "/brightness"` and
`p + "/max_brightness"`. -/
theorem C11_checked_paths (env : Env) (s : State)
    (hlow : EXTRA_PATH_LEN ≤ s.backlight_path.data.length)
    (hhigh : s.backlight_path.data.length < MAX_PATH_LEN)
    (hopen : env.opendir s.backlight_path = DirOpen.ok) :
    s.checked_path "/brightness" = s.backlight_path ∧
    s.checked_path "/max_brightness" = s.backlight_path ∧
    ((validate_control_directory env s).1 = Outcome.ret () ↔
      env.access s.backlight_path = true) ∧
    s.brightness_file = ⟨s.backlight_path.data ++ "/brightness".data⟩ ∧
    s.max_brightness_file = ⟨s.backlight_path.data ++ "/max_brightness".data⟩ := by
  have hcopy := strlcpy_short s.backlight_path hhigh
  have hchk : ∀ name, s.checked_path name = s.backlight_path := by
    intro name
    unfold State.checked_path strlcat
    rw [hcopy, if_pos hlow]
  have htake : List.take 199 s.backlight_path.data = s.backlight_path.data :=
    List.take_of_length_le (by unfold MAX_PATH_LEN at hhigh; omega)
  refine ⟨hchk _, hchk _, ?_, ?_, ?_⟩
  · rw [validate_control_directory_eq, hopen, hchk, hchk]
    simp only [reduceCtorEq, if_false]
    by_cases ha : env.access s.backlight_path = true
    · simp [ha]
    · have ha2 : env.access s.backlight_path = false := by simpa using ha
      simp [ha2]
  · unfold State.brightness_file
    rw [attribute_path_eq _ _ (by decide), htake]
  · unfold State.max_brightness_file
    rw [attribute_path_eq _ _ (by decide), htake]

/-- C11 (witness): the compiled-in directory, opening but empty, passes the
check; `-r` then fails only when `max_brightness` is opened. -/
theorem C11_checked_paths_witness :
    EXTRA_PATH_LEN ≤ state_r_parsed.backlight_path.data.length ∧
    state_r_parsed.backlight_path.data.length < MAX_PATH_LEN ∧
    env_empty_dir.opendir state_r_parsed.backlight_path = DirOpen.ok ∧
    (state_r_parsed.checked_path "/brightness" = state_r_parsed.backlight_path ∧
     state_r_parsed.checked_path "/max_brightness" = state_r_parsed.backlight_path ∧
     ((validate_control_directory env_empty_dir state_r_parsed).1 = Outcome.ret () ↔
       env_empty_dir.access state_r_parsed.backlight_path = true) ∧
     state_r_parsed.brightness_file =
       ⟨state_r_parsed.backlight_path.data ++ "/brightness".data⟩ ∧
     state_r_parsed.max_brightness_file =
       ⟨state_r_parsed.backlight_path.data ++ "/max_brightness".data⟩) ∧
    env_empty_dir.access (BACKLIGHT_PATH ++ "/brightness") = false ∧
    env_empty_dir.access (BACKLIGHT_PATH ++ "/max_brightness") = false ∧
    (validate_control_directory env_empty_dir state_r_parsed).1 = Outcome.ret () ∧
    run env_empty_dir "brightlight" ["-r"] =
      (Outcome.exit 1, state_r_parsed.log
        [Event.opendir BACKLIGHT_PATH, Event.closedir true,
         Event.access BACKLIGHT_PATH, Event.access BACKLIGHT_PATH,
         Event.fopen (BACKLIGHT_PATH ++ "/max_brightness") "r",
         Event.stderr "Error occured while trying to open max_brightness file.\n"]) :=
  ⟨by decide, by decide, by decide,
   C11_checked_paths env_empty_dir state_r_parsed (by decide) (by decide) (by decide),
   by decide, by decide, by decide, by decide⟩

/-! ## `-m` with `-p` -/

/-- C12 (the code at the failing input): with maximum 255, `-m` prints the
maximum on the raw scale, and `-m -p` prints `100%` instead: the `-p` flag is
not ignored. -/
theorem C12_percentage_flag_with_maximum :
    run env_example "brightlight" ["-m"] =
      (Outcome.exit 0, ((parse_args ["-m"] (State.start "brightlight")).2.log
        [Event.opendir BACKLIGHT_PATH, Event.closedir true,
         Event.access BACKLIGHT_PATH, Event.access BACKLIGHT_PATH,
         Event.fopen (BACKLIGHT_PATH ++ "/max_brightness") "r",
         Event.fscanf (BACKLIGHT_PATH ++ "/max_brightness"),
         Event.fclose (BACKLIGHT_PATH ++ "/max_brightness"),
         Event.stdout "Maximum backlight brightness is: 255.\n"]).with_maximum 255) ∧
    run env_example "brightlight" ["-m", "-p"] =
      (Outcome.exit 0, ((parse_args ["-m", "-p"] (State.start "brightlight")).2.log
        [Event.opendir BACKLIGHT_PATH, Event.closedir true,
         Event.access BACKLIGHT_PATH, Event.access BACKLIGHT_PATH,
         Event.fopen (BACKLIGHT_PATH ++ "/max_brightness") "r",
         Event.fscanf (BACKLIGHT_PATH ++ "/max_brightness"),
         Event.fclose (BACKLIGHT_PATH ++ "/max_brightness"),
         Event.stdout "Maximum backlight brightness is: 100%.\n"]).with_maximum 255) := by
  decide

/-! ## What the read-current and write actions print -/

/-- C14 (counterexample): with maximum and brightness 42949673, `-r -p` prints
`0%` where `floor(c * 100 / m)` is 100; and with maximum 1 and brightness
30000000 it prints a negative number. -/
theorem C14_counterexample :
    (run env_huge_both "brightlight" ["-r", "-p"]).2.trace.getLast? =
      some (Event.stdout "Current backlight brightness is: 0%.\n") ∧
    42949673 * 100 / 42949673 = 100 ∧
    (run env_overbright "brightlight" ["-r", "-p"]).2.trace.getLast? =
      some (Event.stdout "Current backlight brightness is: -1294967296%.\n") := by
  decide

/-- C14 (amended): for every maximum `m > 0` and current raw brightness `c`
read from the brightness file, the read-current action prints
"Current backlight brightness is: c." without percentage mode; with
percentage mode it prints "Current backlight brightness is: floor(c * 100 / m)%."
provided `c * 100 < 2^32` and the quotient is at most `2^31 - 1` (both hold
whenever `c <= m <= 42949672`). -/
theorem C14_read_current_output (env : Env) (s sc : State) (c : Nat)
    (hcur : get_current_brightness env s = (Outcome.ret c, sc)) (hm : 0 < s.maximum) :
    (s.values_as_percentages = 0 →
      (read_backlight_brightness env s).1 = Outcome.ret () ∧
      (read_backlight_brightness env s).2.trace = sc.trace ++
        [Event.stdout ("Current backlight brightness is: " ++ toString c ++ "." ++ "\n")]) ∧
    (s.values_as_percentages ≠ 0 → c * 100 < UINT_MOD → c * 100 / s.maximum ≤ INT_MAX →
      (read_backlight_brightness env s).1 = Outcome.ret () ∧
      (read_backlight_brightness env s).2.trace = sc.trace ++
        [Event.stdout ("Current backlight brightness is: " ++ toString (c * 100 / s.maximum)
          ++ "%." ++ "\n")]) ∧
    (c ≤ s.maximum → s.maximum ≤ 42949672 →
      c * 100 < UINT_MOD ∧ c * 100 / s.maximum ≤ INT_MAX) := by
  obtain ⟨hsc, hc⟩ := get_current_brightness_ret env s sc c hcur
  have hu : to_unsigned (to_int c) = c := by
    rw [to_int_small c hc]
    have := to_unsigned_nonneg (c : Int) (by omega) (by exact_mod_cast hc)
    omega
  have hpct : sc.values_as_percentages = s.values_as_percentages := by rw [hsc]; rfl
  have hmax : sc.maximum = s.maximum := by rw [hsc]; rfl
  refine ⟨?_, ?_, ?_⟩
  · intro hp
    have hp2 : ¬ sc.values_as_percentages ≠ 0 := by rw [hpct]; exact fun h => h hp
    rw [read_backlight_brightness_eq, hcur]
    simp only [if_neg hp2, hu, format_d_nat c hc]
    exact ⟨trivial, rfl⟩
  · intro hp hw hq
    have hp2 : sc.values_as_percentages ≠ 0 := by rw [hpct]; exact hp
    rw [read_backlight_brightness_eq, hcur]
    simp only [if_pos hp2, hu, hmax, to_percentage_no_wrap s.maximum c hm hw, format_d_nat _ hq]
    exact ⟨trivial, rfl⟩
  · intro hle h2
    have h1 : c * 100 ≤ s.maximum * 100 := Nat.mul_le_mul_right _ hle
    refine ⟨by unfold UINT_MOD; omega, ?_⟩
    have h3 : c * 100 / s.maximum ≤ 100 := by
      apply Nat.div_le_of_le_mul
      exact h1
    unfold INT_MAX
    omega

/-- C14 (witness): `max_brightness` "255", `brightness` "128": `-r` prints 128
and `-r -p` prints 50. -/
theorem C14_read_current_output_witness :
    get_current_brightness env_example state_r_pct =
      (Outcome.ret 128, (get_current_brightness env_example state_r_pct).2) ∧
    0 < state_r_pct.maximum ∧ state_r_pct.values_as_percentages ≠ 0 ∧
    128 * 100 < UINT_MOD ∧ 128 * 100 / state_r_pct.maximum ≤ INT_MAX ∧
    ((read_backlight_brightness env_example state_r_pct).1 = Outcome.ret () ∧
     (read_backlight_brightness env_example state_r_pct).2.trace =
       (get_current_brightness env_example state_r_pct).2.trace ++
         [Event.stdout ("Current backlight brightness is: " ++
           toString (128 * 100 / state_r_pct.maximum) ++ "%." ++ "\n")]) ∧
    (run env_example "brightlight" ["-r"]).2.trace.getLast? =
      some (Event.stdout "Current backlight brightness is: 128.\n") ∧
    (run env_example "brightlight" ["-r", "-p"]).2.trace.getLast? =
      some (Event.stdout "Current backlight brightness is: 50%.\n") :=
  ⟨by decide, by decide, by decide, by decide, by decide,
   (C14_read_current_output env_example state_r_pct _ 128 (by decide) (by decide)).2.1
     (by decide) (by decide) (by decide),
   by decide, by decide⟩

/-- The state a successful write action leaves behind. -/
theorem write_backlight_brightness_ret (env : Env) (s s1 : State)
    (hret : write_backlight_brightness env s = (Outcome.ret (), s1)) :
    ∃ cur, cur ≤ INT_MAX ∧
      get_current_brightness env s = (Outcome.ret cur,
        s.log [Event.fopen s.brightness_file "r", Event.fscanf s.brightness_file,
          Event.fclose s.brightness_file]) ∧
      (s.values_as_percentages ≠ 0 → ∃ oldval, to_percentage s.maximum cur = some oldval ∧
        s1.trace = s.trace ++
          [Event.fopen s.brightness_file "r", Event.fscanf s.brightness_file,
           Event.fclose s.brightness_file, Event.fopen s.brightness_file "w",
           Event.fprintf s.brightness_file
             (format_d (from_percentage s.maximum (to_unsigned s.brightness))),
           Event.fclose s.brightness_file,
           Event.stdout ("Changed backlight brightness: " ++ format_d oldval ++ "% " ++ "=> " ++
             toString s.brightness ++ "%." ++ "\n")]) ∧
      (s.values_as_percentages = 0 →
        s1.trace = s.trace ++
          [Event.fopen s.brightness_file "r", Event.fscanf s.brightness_file,
           Event.fclose s.brightness_file, Event.fopen s.brightness_file "w",
           Event.fprintf s.brightness_file (format_d (to_unsigned s.brightness)),
           Event.fclose s.brightness_file,
           Event.stdout ("Changed backlight brightness: " ++ format_d cur ++ " " ++ "=> " ++
             toString s.brightness ++ "." ++ "\n")]) := by
  rw [write_backlight_brightness_eq] at hret
  rcases hc : get_current_brightness env s with ⟨o, sc⟩
  rw [hc] at hret
  cases o with
  | exit n => simp at hret
  | fault w => simp at hret
  | ret cur =>
    obtain ⟨hsc, hcur⟩ := get_current_brightness_ret env s sc cur hc
    have hbr : sc.brightness = s.brightness := by rw [hsc]; rfl
    have hpct : sc.values_as_percentages = s.values_as_percentages := by rw [hsc]; rfl
    have hmax : sc.maximum = s.maximum := by rw [hsc]; rfl
    have hbf : sc.brightness_file = s.brightness_file := by rw [hsc]; rfl
    have htr : sc.trace = s.trace ++ [Event.fopen s.brightness_file "r",
        Event.fscanf s.brightness_file, Event.fclose s.brightness_file] := by rw [hsc]; rfl
    refine ⟨cur, hcur, by rw [hsc], ?_, ?_⟩
    · intro hp
      simp only at hret
      rw [hpct, if_pos hp, hmax, hbr] at hret
      cases htp : to_percentage s.maximum cur with
      | none => rw [htp] at hret; simp at hret
      | some oldval =>
        rw [htp] at hret
        simp only at hret
        rcases hw : set_current_brightness env
          (from_percentage s.maximum (to_unsigned s.brightness)) sc with ⟨o2, sw⟩
        rw [hw] at hret
        cases o2 with
        | exit n => simp at hret
        | fault w => simp at hret
        | ret u =>
          have hsw := set_current_brightness_ret env _ sc sw hw
          simp only [Prod.mk.injEq, true_and] at hret
          subst hret
          refine ⟨oldval, rfl, ?_⟩
          rw [hsw, hbf]
          show ((sc.trace ++ _) ++ _) = _
          rw [htr]
          simp
    · intro hp
      have hp2 : ¬ s.values_as_percentages ≠ 0 := fun h => h hp
      simp only at hret
      rw [hpct, if_neg hp2, hbr] at hret
      rcases hw : set_current_brightness env (to_unsigned s.brightness) sc with ⟨o2, sw⟩
      rw [hw] at hret
      cases o2 with
      | exit n => simp at hret
      | fault w => simp at hret
      | ret u =>
        have hsw := set_current_brightness_ret env _ sc sw hw
        simp only [Prod.mk.injEq, true_and] at hret
        subst hret
        rw [hsw, hbf]
        show ((sc.trace ++ _) ++ _) = _
        rw [htr]
        simp

/-- C18: every value the program writes to the brightness file is at most the
maximum: `from_percentage(pct) <= maximum` for every `pct` in `0..100` and
every maximum, also when the product wraps around modulo `2^32`; and a
successful write action with an accepted value writes the decimal digits of one
number `n <= maximum`, in both modes. -/
theorem C18_written_value_le_maximum (env : Env) (s s1 : State)
    (hret : write_backlight_brightness env s = (Outcome.ret (), s1))
    (hrange : write_value_in_range s) (hm : s.maximum ≤ INT_MAX) :
    (∀ pct maximum : Nat, pct ≤ 100 → maximum ≤ INT_MAX →
      ((pct * maximum) % UINT_MOD) / 100 ≤ maximum) ∧
    ∃ n report, n ≤ s.maximum ∧ s1.trace = s.trace ++
      [Event.fopen s.brightness_file "r", Event.fscanf s.brightness_file,
       Event.fclose s.brightness_file, Event.fopen s.brightness_file "w",
       Event.fprintf s.brightness_file (toString n),
       Event.fclose s.brightness_file, Event.stdout report] := by
  refine ⟨fun pct maximum hp _ => from_percentage_le maximum pct hp, ?_⟩
  obtain ⟨cur, hcur, hget, hpct, hraw⟩ := write_backlight_brightness_ret env s s1 hret
  unfold write_value_in_range at hrange
  by_cases hp : s.values_as_percentages ≠ 0
  · rw [if_pos hp] at hrange
    obtain ⟨old, _, htr⟩ := hpct hp
    have hu := to_unsigned_nonneg s.brightness hrange.1 (by unfold INT_MAX; omega)
    have hle := from_percentage_le s.maximum (to_unsigned s.brightness) (by omega)
    rw [format_d_nat (from_percentage s.maximum (to_unsigned s.brightness)) (by omega)] at htr
    exact ⟨_, _, hle, htr⟩
  · rw [if_neg hp] at hrange
    have hp0 : s.values_as_percentages = 0 := by simpa using hp
    have hu := to_unsigned_nonneg s.brightness hrange.1
      (by have : ((s.maximum : Nat) : Int) ≤ ((INT_MAX : Nat) : Int) := by exact_mod_cast hm
          omega)
    have hle : to_unsigned s.brightness ≤ s.maximum := by omega
    have htr := hraw hp0
    rw [format_d_nat (to_unsigned s.brightness) (by omega)] at htr
    exact ⟨_, _, hle, htr⟩

/-- C18 (witness): maximum 255: `-p -w 25` writes 63. -/
theorem C18_written_value_le_maximum_witness :
    write_backlight_brightness env_example state_w25_pct =
      (Outcome.ret (), (write_backlight_brightness env_example state_w25_pct).2) ∧
    write_value_in_range state_w25_pct ∧ state_w25_pct.maximum ≤ INT_MAX ∧
    ((∀ pct maximum : Nat, pct ≤ 100 → maximum ≤ INT_MAX →
      ((pct * maximum) % UINT_MOD) / 100 ≤ maximum) ∧
     ∃ n report, n ≤ state_w25_pct.maximum ∧
      (write_backlight_brightness env_example state_w25_pct).2.trace =
        state_w25_pct.trace ++
        [Event.fopen state_w25_pct.brightness_file "r",
         Event.fscanf state_w25_pct.brightness_file,
         Event.fclose state_w25_pct.brightness_file,
         Event.fopen state_w25_pct.brightness_file "w",
         Event.fprintf state_w25_pct.brightness_file (toString n),
         Event.fclose state_w25_pct.brightness_file, Event.stdout report]) ∧
    Event.fprintf (BACKLIGHT_PATH ++ "/brightness") "63" ∈
      (write_backlight_brightness env_example state_w25_pct).2.trace :=
  ⟨by decide, by decide, by decide,
   C18_written_value_le_maximum env_example state_w25_pct _ (by decide) (by decide) (by decide),
   by decide⟩

end Brightlight
